import Mathlib

/-!
Verification of the scalable probabilistic broadcast protocol engine.
The Go source is embedded shallowly: maps become association lists,
sets become duplicate-free lists, randomness becomes explicit streams,
and code paths that panic in Go (writes to nil maps, modulo by zero)
return none.
-/

namespace Scalable

abbrev Pid := String

abbrev Value := Int

/-- The (author, sequence number, value) triple carried by every protocol message. -/
structure MessageData where
  author : Pid
  seqNumber : Int
  value : Value
  deriving DecidableEq, Repr

/-- The six protocol stages of ScalableProtocolMessage. -/
inductive Stage where
  | GOSSIP_SUBSCRIBE
  | GOSSIP
  | ECHO_SUBSCRIBE
  | ECHO
  | READY_SUBSCRIBE
  | READY
  deriving DecidableEq, Repr

/-- A protocol message: a stage tag together with its MessageData. -/
structure ScalableProtocolMessage where
  stage : Stage
  messageData : MessageData
  deriving DecidableEq, Repr

/-- Configuration parameters consumed by the engine. -/
structure Config where
  ProcessCount : Nat
  GossipSampleSize : Nat
  EchoSampleSize : Nat
  EchoThreshold : Int
  ReadySampleSize : Nat
  ReadyThreshold : Int
  DeliverySampleSize : Nat
  DeliveryThreshold : Int

/-- Association-list lookup, modelling a Go map read. -/
def lookupA {α β : Type} [DecidableEq α] : List (α × β) → α → Option β
  | [], _ => none
  | (a, b) :: t, k => if a = k then some b else lookupA t k

/-- Association-list update, modelling a Go map write on a non-nil map. -/
def setA {α β : Type} [DecidableEq α] : List (α × β) → α → β → List (α × β)
  | [], k, v => [(k, v)]
  | (a, b) :: t, k, v => if a = k then (k, v) :: t else (a, b) :: setA t k v

/-- Set insertion, modelling a write of true into a Go map used as a set. -/
def insertS {α : Type} [DecidableEq α] (l : List α) (x : α) : List α :=
  if x ∈ l then l else l ++ [x]

/-- Read of an integer-valued statistics map; absent keys read as zero. -/
def getStat (l : List (Value × Int)) (v : Value) : Int :=
  (lookupA l v).getD 0

/-- Increment of an integer-valued statistics map entry. -/
def incStat (l : List (Value × Int)) (v : Value) : List (Value × Int) :=
  setA l v (getStat l v + 1)

/-- Two-level map read: missing outer entry behaves as an empty inner map. -/
def lookup2 {β : Type} (l : List (Pid × List (Int × β))) (a : Pid) (s : Int) : Option β :=
  match lookupA l a with
  | none => none
  | some inner => lookupA inner s

/-- Two-level map write: writing through a missing outer entry is a Go nil-map
panic, modelled as none. -/
def set2 {β : Type} (l : List (Pid × List (Int × β))) (a : Pid) (s : Int) (v : β) :
    Option (List (Pid × List (Int × β))) :=
  match lookupA l a with
  | none => none
  | some inner => some (setA l a (setA inner s v))

/-- Per-broadcast protocol state (struct messageState in the source). -/
structure MessageState where
  receivedEcho : List Pid
  receivedReady : List (Pid × List Value)
  echoMessagesStat : List (Value × Int)
  readySampleStat : List (Value × Int)
  deliverySampleStat : List (Value × Int)
  readyMessagesSent : List Value
  gossipSample : List Pid
  echoSample : List Pid
  readySample : List Pid
  deliverySample : List Pid
  echoSubscriptionSet : List Pid
  readySubscriptionSet : List Pid
  gossipMessage : Option ScalableProtocolMessage
  echoMessage : Option ScalableProtocolMessage
  sentReadyFromSieve : Bool
  deriving DecidableEq, Repr

/-- newMessageState: all maps empty, caches empty, sieve flag down. -/
def newMessageState : MessageState :=
  { receivedEcho := [], receivedReady := [], echoMessagesStat := [],
    readySampleStat := [], deliverySampleStat := [], readyMessagesSent := [],
    gossipSample := [], echoSample := [], readySample := [], deliverySample := [],
    echoSubscriptionSet := [], readySubscriptionSet := [],
    gossipMessage := none, echoMessage := none, sentReadyFromSieve := false }

/-- Engine state of one process (struct Process in the source). -/
structure Process where
  pid : Pid
  pids : List Pid
  msgCounter : Int
  deliveredMessages : List (Pid × List (Int × Value))
  messagesLog : List (Pid × List (Int × MessageState))
  deriving DecidableEq, Repr

/-- Observable outputs of a handler invocation: point-to-point sends with a
spoofed sender pid, and the two log lines the engine prints. -/
inductive Effect where
  | send (target : Pid) (msg : ScalableProtocolMessage) (sender : Pid)
  | logAccept (onPid : Pid) (seq : Int) (value : Value) (author : Pid)
  | logDuplicateSeq (onPid : Pid)
  deriving DecidableEq, Repr

/-- Explicit randomness consumed by one handler invocation: the Poisson draw
for the gossip sample size, fuel bounding the gossip collection loop, and
one uniform stream per sampling call. -/
structure RandomSource where
  gossipSizeDraw : Nat
  gossipFuel : Nat
  gossipStream : Nat → Nat
  echoStream : Nat → Nat
  readyStream : Nat → Nat
  deliveryStream : Nat → Nat

/-- getRandomPid: pids indexed at a random value modulo ProcessCount.
Modulo by zero or an out-of-range index is a Go panic, modelled as none. -/
def getRandomPid (cfg : Config) (p : Process) (r : Nat) : Option Pid :=
  if cfg.ProcessCount = 0 then none
  else p.pids.get? (r % cfg.ProcessCount)

/-- The draw loop of Process.sample: exactly size draws with replacement,
collapsed into a set. -/
def sampleSet (cfg : Config) (p : Process) (stream : Nat → Nat) :
    Nat → Nat → List Pid → Option (List Pid)
  | 0, _, acc => some acc
  | k + 1, i, acc =>
    match getRandomPid cfg p (stream i) with
    | none => none
    | some q => sampleSet cfg p stream k (i + 1) (insertS acc q)

/-- broadcastToSet: send msg to every pid of the set, own pid as sender. -/
def broadcastToSet (p : Process) (set : List Pid) (msg : ScalableProtocolMessage) :
    List Effect :=
  set.map (fun q => Effect.send q msg p.pid)

/-- Process.sample: draw the set, then broadcast the subscription message to it. -/
def sample (cfg : Config) (p : Process) (stream : Nat → Nat)
    (stage : Stage) (msgData : MessageData) (size : Nat) :
    Option (List Pid × List Effect) :=
  match sampleSet cfg p stream size 0 [] with
  | none => none
  | some s => some (s, broadcastToSet p s { stage := stage, messageData := msgData })

/-- The collection loop of generateGossipSample: draw until the set reaches the
target size, bounded by fuel (none models non-termination within the fuel). -/
def gossipLoop (cfg : Config) (p : Process) (stream : Nat → Nat) :
    Nat → Nat → Nat → List Pid → Option (List Pid)
  | 0, _, target, acc => if acc.length < target then none else some acc
  | fuel + 1, i, target, acc =>
    if acc.length < target then
      match getRandomPid cfg p (stream i) with
      | none => none
      | some q => gossipLoop cfg p stream fuel (i + 1) target (insertS acc q)
    else some acc

/-- generateGossipSample: Poisson-drawn target size clipped to ProcessCount,
then the collection loop. -/
def generateGossipSample (cfg : Config) (p : Process) (rs : RandomSource) :
    Option (List Pid) :=
  gossipLoop cfg p rs.gossipStream rs.gossipFuel 0
    (min rs.gossipSizeDraw cfg.ProcessCount) []

/-- InitProcess: own pid, participant list, zero counter, and the two outer
maps pre-populated with an empty inner map per participant. -/
def InitProcess (pid : Pid) (pids : List Pid) : Process :=
  { pid := pid, pids := pids, msgCounter := 0,
    deliveredMessages := pids.map (fun q => (q, [])),
    messagesLog := pids.map (fun q => (q, [])) }

/-- initMessageState: return the cached state for the key, or create it:
pre-populate receivedReady for every participant, draw the four samples and
send the corresponding subscriptions, and store the state in messagesLog
(a write through a missing author entry is a Go panic, hence none). -/
def initMessageState (cfg : Config) (p : Process) (rs : RandomSource)
    (msgData : MessageData) : Option (Process × MessageState × List Effect) :=
  match lookup2 p.messagesLog msgData.author msgData.seqNumber with
  | some ms => some (p, ms, [])
  | none =>
    match generateGossipSample cfg p rs with
    | none => none
    | some gSample =>
      let effsG := broadcastToSet p gSample
        { stage := Stage.GOSSIP_SUBSCRIBE, messageData := msgData }
      match sample cfg p rs.echoStream Stage.ECHO_SUBSCRIBE msgData cfg.EchoSampleSize with
      | none => none
      | some (eSample, effsE) =>
        match sample cfg p rs.readyStream Stage.READY_SUBSCRIBE msgData cfg.ReadySampleSize with
        | none => none
        | some (rSample, effsR) =>
          match sample cfg p rs.deliveryStream Stage.READY_SUBSCRIBE msgData
              cfg.DeliverySampleSize with
          | none => none
          | some (dSample, effsD) =>
            let ms := { newMessageState with
              receivedReady := p.pids.map (fun q => (q, [])),
              gossipSample := gSample,
              echoSample := eSample,
              readySample := rSample,
              deliverySample := dSample }
            match set2 p.messagesLog msgData.author msgData.seqNumber ms with
            | none => none
            | some log => some ({ p with messagesLog := log }, ms,
                effsG ++ effsE ++ effsR ++ effsD)

/-- Process.delivered: whether the key already has a delivered value; logs the
duplicated-seq-number attack when the stored value differs. -/
def delivered (p : Process) (msgData : MessageData) : Bool × List Effect :=
  match lookup2 p.deliveredMessages msgData.author msgData.seqNumber with
  | none => (false, [])
  | some dv =>
    (true, if dv ≠ msgData.value then [Effect.logDuplicateSeq p.pid] else [])

/-- Process.deliver: record the value for the key and log the acceptance.
A write through a missing author entry is a Go panic, hence none. -/
def deliver (p : Process) (msgData : MessageData) : Option (Process × List Effect) :=
  match set2 p.deliveredMessages msgData.author msgData.seqNumber msgData.value with
  | none => none
  | some dm =>
    some ({ p with deliveredMessages := dm },
      [Effect.logAccept p.pid msgData.seqNumber msgData.value msgData.author])

/-- broadcastGossip: cache the GOSSIP message and send it to gossipSample. -/
def broadcastGossip (p : Process) (ms : MessageState) (msgData : MessageData) :
    MessageState × List Effect :=
  let gm : ScalableProtocolMessage := { stage := Stage.GOSSIP, messageData := msgData }
  ({ ms with gossipMessage := some gm }, broadcastToSet p ms.gossipSample gm)

/-- broadcastReady: send a READY message to readySubscriptionSet. -/
def broadcastReady (p : Process) (ms : MessageState) (msgData : MessageData) :
    List Effect :=
  broadcastToSet p ms.readySubscriptionSet
    { stage := Stage.READY, messageData := msgData }

/-- The guard of maybeSendReadyFromSieve, exactly as in the source. -/
def sieveGuard (cfg : Config) (ms : MessageState) (msgData : MessageData) : Bool :=
  !ms.sentReadyFromSieve &&
    (match ms.echoMessage with
     | none => false
     | some em => msgData.value == em.messageData.value) &&
    decide (cfg.EchoThreshold ≤ getStat ms.echoMessagesStat msgData.value)

/-- maybeSendReadyFromSieve: when the guard holds, record the value as sent,
broadcast READY, and raise the sieve flag. -/
def maybeSendReadyFromSieve (cfg : Config) (p : Process) (ms : MessageState)
    (msgData : MessageData) : MessageState × List Effect :=
  if sieveGuard cfg ms msgData then
    let ms1 := { ms with readyMessagesSent := insertS ms.readyMessagesSent msgData.value }
    ({ ms1 with sentReadyFromSieve := true }, broadcastReady p ms1 msgData)
  else (ms, [])

/-- The ready-sample amplification block of the READY handler: count the READY
inside readySample and, once the threshold is reached, record the value as
sent and broadcast READY (the source has no readyMessagesSent guard here). -/
def readyAmplify (cfg : Config) (p : Process) (senderPid : Pid) (ms1 : MessageState)
    (msgData : MessageData) : MessageState × List Effect :=
  if senderPid ∈ ms1.readySample then
    let ms2a := { ms1 with readySampleStat := incStat ms1.readySampleStat msgData.value }
    if cfg.ReadyThreshold ≤ getStat ms2a.readySampleStat msgData.value then
      ({ ms2a with readyMessagesSent := insertS ms2a.readyMessagesSent msgData.value },
       broadcastReady p ms2a msgData)
    else (ms2a, ([] : List Effect))
  else (ms1, ([] : List Effect))

/-- The per-stage body of Process.Receive, acting on the already-initialized
state of the message key. -/
def receiveStage (cfg : Config) (p : Process) (senderPid : Pid)
    (msg : ScalableProtocolMessage) (ms : MessageState) :
    Option (Process × MessageState × List Effect) :=
  let msgData := msg.messageData
  let value := msgData.value
  match msg.stage with
  | Stage.GOSSIP_SUBSCRIBE =>
    if senderPid ∈ ms.gossipSample then some (p, ms, [])
    else
      let ms1 := { ms with gossipSample := insertS ms.gossipSample senderPid }
      match ms.gossipMessage with
      | none => some (p, ms1, [])
      | some gm => some (p, ms1, [Effect.send senderPid gm p.pid])
  | Stage.GOSSIP =>
    match ms.gossipMessage with
    | some _ => some (p, ms, [])
    | none =>
      let gb := broadcastGossip p ms msgData
      let em : ScalableProtocolMessage := { stage := Stage.ECHO, messageData := msgData }
      let ms2 := { gb.1 with echoMessage := some em }
      let sv := maybeSendReadyFromSieve cfg p ms2 msgData
      some (p, sv.1, gb.2 ++ broadcastToSet p ms2.echoSubscriptionSet em ++ sv.2)
  | Stage.ECHO_SUBSCRIBE =>
    if senderPid ∈ ms.echoSubscriptionSet then some (p, ms, [])
    else
      let ms1 := { ms with echoSubscriptionSet := insertS ms.echoSubscriptionSet senderPid }
      match ms.echoMessage with
      | none => some (p, ms1, [])
      | some em => some (p, ms1, [Effect.send senderPid em p.pid])
  | Stage.ECHO =>
    if senderPid ∉ ms.echoSample ∨ senderPid ∈ ms.receivedEcho then some (p, ms, [])
    else
      let ms1 := { ms with receivedEcho := insertS ms.receivedEcho senderPid,
                           echoMessagesStat := incStat ms.echoMessagesStat value }
      let sv := maybeSendReadyFromSieve cfg p ms1 msgData
      some (p, sv.1, sv.2)
  | Stage.READY_SUBSCRIBE =>
    if senderPid ∈ ms.readySubscriptionSet then some (p, ms, [])
    else
      let ms1 := { ms with readySubscriptionSet := insertS ms.readySubscriptionSet senderPid }
      let effs := ms.readyMessagesSent.map (fun v =>
        Effect.send senderPid
          { stage := Stage.READY,
            messageData := { author := msgData.author, seqNumber := msgData.seqNumber,
                             value := v } }
          p.pid)
      some (p, ms1, effs)
  | Stage.READY =>
    if ((lookupA ms.receivedReady senderPid).getD []).contains value then some (p, ms, [])
    else
      match lookupA ms.receivedReady senderPid with
      | none => none
      | some inner =>
        let ms1 := { ms with
          receivedReady := setA ms.receivedReady senderPid (insertS inner value) }
        let rdy := readyAmplify cfg p senderPid ms1 msgData
        if senderPid ∈ rdy.1.deliverySample then
          let ms3 := { rdy.1 with deliverySampleStat := incStat rdy.1.deliverySampleStat value }
          let dlv := delivered p msgData
          if !dlv.1 && decide (cfg.DeliveryThreshold ≤ getStat ms3.deliverySampleStat value) then
            match deliver p msgData with
            | none => none
            | some (p1, effsA) => some (p1, ms3, rdy.2 ++ dlv.2 ++ effsA)
          else some (p, ms3, rdy.2 ++ dlv.2)
        else some (p, rdy.1, rdy.2)

/-- Write the updated message state back into messagesLog; in the source this
is implicit through pointer aliasing. -/
def storeMessageState (p : Process) (msgData : MessageData) (ms : MessageState) :
    Option Process :=
  match set2 p.messagesLog msgData.author msgData.seqNumber ms with
  | none => none
  | some log => some { p with messagesLog := log }

/-- Process.Receive for an inbound ScalableProtocolMessage: initialize the
state of the key, run the stage branch, store the updated state. -/
def Receive (cfg : Config) (p : Process) (rs : RandomSource)
    (senderPid : Pid) (msg : ScalableProtocolMessage) : Option (Process × List Effect) :=
  match initMessageState cfg p rs msg.messageData with
  | none => none
  | some (p1, ms, effs1) =>
    match receiveStage cfg p1 senderPid msg ms with
    | none => none
    | some (p2, ms2, effs2) =>
      match storeMessageState p2 msg.messageData ms2 with
      | none => none
      | some p3 => some (p3, effs1 ++ effs2)

/-- Process.Broadcast: build the MessageData from the own pid and counter,
initialize the state of the key, cache and fan out the GOSSIP message,
increment the counter. -/
def Broadcast (cfg : Config) (p : Process) (rs : RandomSource) (value : Value) :
    Option (Process × List Effect) :=
  let msgData : MessageData := { author := p.pid, seqNumber := p.msgCounter, value := value }
  match initMessageState cfg p rs msgData with
  | none => none
  | some (p1, ms, effs1) =>
    let gb := broadcastGossip p1 ms msgData
    match storeMessageState p1 msgData gb.1 with
    | none => none
    | some p2 => some ({ p2 with msgCounter := p2.msgCounter + 1 }, effs1 ++ gb.2)

/-! Concrete scenarios used to evaluate the embedded code on explicit inputs. -/

/-- A constant uniform stream. -/
def constStream (n : Nat) : Nat → Nat := fun _ => n

/-- Shorthand for a protocol message literal. -/
def mkMsg (st : Stage) (a : Pid) (s : Int) (v : Value) : ScalableProtocolMessage :=
  { stage := st, messageData := { author := a, seqNumber := s, value := v } }

/-- Scenario for the READY amplification: three processes, ReadyThreshold one,
echo and delivery samples empty, ready sample drawn as the second and third pid. -/
def ampCfg : Config :=
  { ProcessCount := 3, GossipSampleSize := 0, EchoSampleSize := 0, EchoThreshold := 1,
    ReadySampleSize := 2, ReadyThreshold := 1, DeliverySampleSize := 0,
    DeliveryThreshold := 1 }

/-- Randomness for the amplification scenario: empty gossip draw, ready stream
yielding indices one and two. -/
def ampRs : RandomSource :=
  { gossipSizeDraw := 0, gossipFuel := 1, gossipStream := constStream 0,
    echoStream := constStream 0, readyStream := fun i => i + 1,
    deliveryStream := constStream 0 }

/-- The initial process of the amplification scenario. -/
def ampP0 : Process := InitProcess "a" ["a", "b", "c"]

/-- Step one: a READY_SUBSCRIBE from pid c creates the state of key (b, 0) and
registers c in readySubscriptionSet. -/
def ampStep1 : Option (Process × List Effect) :=
  Receive ampCfg ampP0 ampRs "c"
    { stage := Stage.READY_SUBSCRIBE, messageData := { author := "b", seqNumber := 0, value := 0 } }

/-- Step two: a READY with value five from pid b, a ready-sample member. -/
def ampStep2 : Option (Process × List Effect) :=
  match ampStep1 with
  | none => none
  | some x => Receive ampCfg x.1 ampRs "b"
      { stage := Stage.READY, messageData := { author := "b", seqNumber := 0, value := 5 } }

/-- Step three: a READY with value five from pid c, another ready-sample member. -/
def ampStep3 : Option (Process × List Effect) :=
  match ampStep2 with
  | none => none
  | some x => Receive ampCfg x.1 ampRs "c"
      { stage := Stage.READY, messageData := { author := "b", seqNumber := 0, value := 5 } }

/-- Scenario for the gossip-cache overwrite: two processes, all samples empty. -/
def owCfg : Config :=
  { ProcessCount := 2, GossipSampleSize := 0, EchoSampleSize := 0, EchoThreshold := 1,
    ReadySampleSize := 0, ReadyThreshold := 1, DeliverySampleSize := 0,
    DeliveryThreshold := 1 }

/-- Randomness for the overwrite scenario. -/
def owRs : RandomSource :=
  { gossipSizeDraw := 0, gossipFuel := 1, gossipStream := constStream 0,
    echoStream := constStream 0, readyStream := constStream 0,
    deliveryStream := constStream 0 }

/-- The initial process of the overwrite scenario. -/
def owP0 : Process := InitProcess "a" ["a", "b"]

/-- Step one: an inbound GOSSIP forged with the own pid as author and the
current counter value as sequence number caches a gossipMessage with value one. -/
def owStep1 : Option (Process × List Effect) :=
  Receive owCfg owP0 owRs "b"
    { stage := Stage.GOSSIP, messageData := { author := "a", seqNumber := 0, value := 1 } }

/-- Step two: a local Broadcast of value two re-uses the same key (a, 0). -/
def owStep2 : Option (Process × List Effect) :=
  match owStep1 with
  | none => none
  | some x => Broadcast owCfg x.1 owRs 2

/-- The cached gossipMessage of key (a, 0) after a step of a scenario. -/
def gossipCacheAfter (st : Option (Process × List Effect)) :
    Option (Option ScalableProtocolMessage) :=
  match st with
  | none => none
  | some x =>
    match lookup2 x.1.messagesLog "a" 0 with
    | none => none
    | some ms => some ms.gossipMessage

/-- The readyMessagesSent list of key (b, 0) after a step of a scenario. -/
def readySentAfter (st : Option (Process × List Effect)) : Option (List Value) :=
  match st with
  | none => none
  | some x =>
    match lookup2 x.1.messagesLog "b" 0 with
    | none => none
    | some ms => some ms.readyMessagesSent

/-- The effects emitted by a step of a scenario. -/
def effectsOf (st : Option (Process × List Effect)) : Option (List Effect) :=
  match st with
  | none => none
  | some x => some x.2

/-! Extraction helpers for concrete scenario states. -/

/-- The process after a step, or a default when the step panicked. -/
def procAfter (st : Option (Process × List Effect)) (dflt : Process) : Process :=
  match st with
  | none => dflt
  | some x => x.1

/-- The effects of a step, empty when the step panicked. -/
def effsAfter (st : Option (Process × List Effect)) : List Effect :=
  match st with
  | none => []
  | some x => x.2

/-- A concrete state with a cached gossipMessage, for the C6 witness. -/
def c6MS : MessageState :=
  { newMessageState with
    receivedReady := [("a", []), ("b", [])],
    gossipMessage := some (mkMsg Stage.GOSSIP "a" 0 1) }

/-- A concrete process holding c6MS at key (a, 0). -/
def c6P : Process :=
  { pid := "a", pids := ["a", "b"], msgCounter := 0,
    deliveredMessages := [("a", []), ("b", [])],
    messagesLog := [("a", [(0, c6MS)]), ("b", [])] }

/-- A concrete state whose deliverySample contains b, for the C2 witness. -/
def c2MS : MessageState :=
  { newMessageState with
    receivedReady := [("a", []), ("b", [])],
    deliverySample := ["b"] }

/-- A concrete process that already delivered value seven for key (a, 0). -/
def c2P : Process :=
  { pid := "a", pids := ["a", "b"], msgCounter := 0,
    deliveredMessages := [("a", [(0, 7)]), ("b", [])],
    messagesLog := [("a", [(0, c2MS)]), ("b", [])] }

/-- The step of the C2 witness: a conflicting READY(nine) for key (a, 0). -/
def c2Step : Option (Process × List Effect) :=
  Receive owCfg c2P owRs "b" (mkMsg Stage.READY "a" 0 9)

/-- A concrete state with the sieve flag already raised, for the C3 witness. -/
def c3MS : MessageState := { newMessageState with sentReadyFromSieve := true }

/-- A concrete state whose echoSample contains b, for the C7 witness. -/
def c7MS : MessageState :=
  { newMessageState with
    receivedReady := [("a", []), ("b", [])],
    echoSample := ["b"] }

/-- A concrete process holding c7MS at key (a, 0). -/
def c7P : Process :=
  { pid := "a", pids := ["a", "b"], msgCounter := 0,
    deliveredMessages := [("a", []), ("b", [])],
    messagesLog := [("a", [(0, c7MS)]), ("b", [])] }

/-- First ECHO step of the C7 witness. -/
def c7Step : Option (Process × List Effect) :=
  Receive owCfg c7P owRs "b" (mkMsg Stage.ECHO "a" 0 1)

/-- A concrete state that already sent READY(five), for the C8 witness. -/
def c8MS : MessageState :=
  { newMessageState with
    receivedReady := [("a", []), ("b", [])],
    readyMessagesSent := [5] }

/-- A concrete process holding c8MS at key (a, 0). -/
def c8P : Process :=
  { pid := "a", pids := ["a", "b"], msgCounter := 0,
    deliveredMessages := [("a", []), ("b", [])],
    messagesLog := [("a", [(0, c8MS)]), ("b", [])] }

/-- The READY_SUBSCRIBE step of the C8 witness. -/
def c8Step : Option (Process × List Effect) :=
  Receive owCfg c8P owRs "b" (mkMsg Stage.READY_SUBSCRIBE "a" 0 0)

/-- An ECHO step against the cached-gossip process, for the C5 witness. -/
def c5Step : Option (Process × List Effect) :=
  Receive owCfg c6P owRs "b" (mkMsg Stage.ECHO "a" 0 1)

/-! Basic lemmas about the map and set embeddings. -/

theorem lookupA_setA_self {α β : Type} [DecidableEq α] (l : List (α × β)) (k : α) (v : β) :
    lookupA (setA l k v) k = some v := by
  induction l with
  | nil => simp [setA, lookupA]
  | cons hd t ih =>
    obtain ⟨a, b⟩ := hd
    by_cases h : a = k
    · simp [setA, lookupA, h]
    · simp [setA, lookupA, h, ih]

theorem lookupA_setA_ne {α β : Type} [DecidableEq α] (l : List (α × β)) (k k2 : α) (v : β)
    (h : k2 ≠ k) : lookupA (setA l k v) k2 = lookupA l k2 := by
  induction l with
  | nil => simp [setA, lookupA, Ne.symm h]
  | cons hd t ih =>
    obtain ⟨a, b⟩ := hd
    by_cases ha : a = k
    · subst ha
      simp [setA, lookupA, Ne.symm h]
    · by_cases hk2 : a = k2
      · simp [setA, lookupA, ha, hk2, h]
      · simp [setA, lookupA, ha, hk2, ih]

theorem setA_eq_self {α β : Type} [DecidableEq α] (l : List (α × β)) (k : α) (v : β)
    (h : lookupA l k = some v) : setA l k v = l := by
  induction l with
  | nil => simp [lookupA] at h
  | cons hd t ih =>
    obtain ⟨a, b⟩ := hd
    by_cases ha : a = k
    · subst ha
      simp [lookupA] at h
      simp [setA, h]
    · simp [lookupA, ha] at h
      simp [setA, ha, ih h]

theorem lookup2_some_outer {β : Type} (l : List (Pid × List (Int × β))) (a : Pid) (s : Int)
    (v : β) (h : lookup2 l a s = some v) :
    ∃ inner, lookupA l a = some inner ∧ lookupA inner s = some v := by
  unfold lookup2 at h
  cases hl : lookupA l a with
  | none => rw [hl] at h; exact absurd h (by simp)
  | some inner => rw [hl] at h; exact ⟨inner, rfl, h⟩

theorem set2_eq {β : Type} (l : List (Pid × List (Int × β))) (a : Pid) (s : Int) (v : β)
    (inner : List (Int × β)) (h : lookupA l a = some inner) :
    set2 l a s v = some (setA l a (setA inner s v)) := by
  unfold set2; rw [h]

theorem lookup2_set2_self {β : Type} (l l2 : List (Pid × List (Int × β))) (a : Pid) (s : Int)
    (v : β) (h : set2 l a s v = some l2) : lookup2 l2 a s = some v := by
  unfold set2 at h
  cases hl : lookupA l a with
  | none => rw [hl] at h; exact absurd h (by simp)
  | some inner =>
    rw [hl] at h
    simp only [Option.some.injEq] at h
    subst h
    simp [lookup2, lookupA_setA_self]

theorem lookup2_set2_ne {β : Type} (l l2 : List (Pid × List (Int × β))) (a : Pid) (s : Int)
    (v : β) (a2 : Pid) (s2 : Int) (h : set2 l a s v = some l2)
    (hne : a2 ≠ a ∨ s2 ≠ s) : lookup2 l2 a2 s2 = lookup2 l a2 s2 := by
  unfold set2 at h
  cases hl : lookupA l a with
  | none => rw [hl] at h; exact absurd h (by simp)
  | some inner =>
    rw [hl] at h
    simp only [Option.some.injEq] at h
    subst h
    by_cases ha : a2 = a
    · subst ha
      cases hne with
      | inl hx => exact absurd rfl hx
      | inr hs => simp [lookup2, lookupA_setA_self, hl, lookupA_setA_ne inner s s2 v hs]
    · simp [lookup2, lookupA_setA_ne l a a2 _ ha]

theorem insertS_mem {α : Type} [DecidableEq α] (l : List α) (x : α) : x ∈ insertS l x := by
  unfold insertS
  by_cases h : x ∈ l
  · simp [h]
  · simp [h]

theorem insertS_nodup {α : Type} [DecidableEq α] (l : List α) (x : α) (h : l.Nodup) :
    (insertS l x).Nodup := by
  unfold insertS
  by_cases hx : x ∈ l
  · simpa [hx]
  · simp [hx, List.nodup_append, h]

theorem insertS_length_le {α : Type} [DecidableEq α] (l : List α) (x : α) :
    (insertS l x).length ≤ l.length + 1 := by
  unfold insertS
  by_cases hx : x ∈ l
  · simp [hx]
  · simp [hx]

theorem insertS_subset {α : Type} [DecidableEq α] (l : List α) (x : α) (t : List α)
    (hx : x ∈ t) (hl : ∀ y ∈ l, y ∈ t) : ∀ y ∈ insertS l x, y ∈ t := by
  intro y hy
  unfold insertS at hy
  by_cases hmem : x ∈ l
  · rw [if_pos hmem] at hy; exact hl y hy
  · rw [if_neg hmem] at hy
    rcases List.mem_append.mp hy with h1 | h2
    · exact hl y h1
    · rw [List.mem_singleton.mp h2]; exact hx

/-! Lemmas about storeMessageState and initMessageState. -/

theorem storeMessageState_eq (p : Process) (d : MessageData) (ms : MessageState)
    (inner : List (Int × MessageState)) (h : lookupA p.messagesLog d.author = some inner) :
    storeMessageState p d ms =
      some { p with messagesLog := setA p.messagesLog d.author (setA inner d.seqNumber ms) } := by
  simp [storeMessageState, set2_eq _ _ _ _ _ h]

theorem storeMessageState_self (p : Process) (d : MessageData) (ms : MessageState)
    (h : lookup2 p.messagesLog d.author d.seqNumber = some ms) :
    storeMessageState p d ms = some p := by
  obtain ⟨inner, ho, hi⟩ := lookup2_some_outer _ _ _ _ h
  simp [storeMessageState, set2_eq _ _ _ _ _ ho, setA_eq_self _ _ _ hi, setA_eq_self _ _ _ ho]

theorem initMessageState_existing (cfg : Config) (p : Process) (rs : RandomSource)
    (d : MessageData) (ms : MessageState)
    (h : lookup2 p.messagesLog d.author d.seqNumber = some ms) :
    initMessageState cfg p rs d = some (p, ms, []) := by
  simp [initMessageState, h]

theorem initMessageState_inv (cfg : Config) (p : Process) (rs : RandomSource) (d : MessageData)
    (p1 : Process) (ms : MessageState) (e : List Effect)
    (h : initMessageState cfg p rs d = some (p1, ms, e)) :
    p1.pid = p.pid ∧ p1.pids = p.pids ∧ p1.msgCounter = p.msgCounter ∧
    p1.deliveredMessages = p.deliveredMessages ∧
    lookup2 p1.messagesLog d.author d.seqNumber = some ms ∧
    (∀ a s st, lookup2 p.messagesLog a s = some st → lookup2 p1.messagesLog a s = some st) ∧
    (∀ st, lookup2 p.messagesLog d.author d.seqNumber = some st → p1 = p ∧ st = ms) := by
  unfold initMessageState at h
  cases hL : lookup2 p.messagesLog d.author d.seqNumber with
  | some ms0 =>
    simp only [hL] at h
    simp only [Option.some.injEq, Prod.mk.injEq] at h
    obtain ⟨hp, hms, -⟩ := h
    subst hp
    subst hms
    exact ⟨rfl, rfl, rfl, rfl, hL, fun a s st hst => hst,
      fun st hst => ⟨rfl, by simp only [hL, Option.some.injEq] at hst; exact hst.symm⟩⟩
  | none =>
    simp only [hL] at h
    cases hG : generateGossipSample cfg p rs with
    | none => simp [hG] at h
    | some gS =>
      simp only [hG] at h
      cases hE : sample cfg p rs.echoStream Stage.ECHO_SUBSCRIBE d cfg.EchoSampleSize with
      | none => simp [hE] at h
      | some xE =>
        obtain ⟨eS, eE⟩ := xE
        simp only [hE] at h
        cases hR : sample cfg p rs.readyStream Stage.READY_SUBSCRIBE d cfg.ReadySampleSize with
        | none => simp [hR] at h
        | some xR =>
          obtain ⟨rS, rE⟩ := xR
          simp only [hR] at h
          cases hD : sample cfg p rs.deliveryStream Stage.READY_SUBSCRIBE d
              cfg.DeliverySampleSize with
          | none => simp [hD] at h
          | some xD =>
            obtain ⟨dS, dE⟩ := xD
            simp only [hD] at h
            split at h
            · exact absurd h (by simp)
            · rename_i log hSet
              simp only [Option.some.injEq, Prod.mk.injEq] at h
              obtain ⟨hp, hms, -⟩ := h
              subst hms
              have hpf : p1.messagesLog = log := by rw [← hp]
              refine ⟨by rw [← hp], by rw [← hp], by rw [← hp], by rw [← hp], ?_, ?_, ?_⟩
              · rw [hpf]
                exact lookup2_set2_self _ _ _ _ _ hSet
              · intro a s st hst
                rw [hpf]
                have hne : a ≠ d.author ∨ s ≠ d.seqNumber := by
                  by_contra hc
                  push_neg at hc
                  rw [hc.1, hc.2, hL] at hst
                  exact absurd hst (by simp)
                rw [lookup2_set2_ne _ _ _ _ _ _ _ hSet hne]
                exact hst
              · intro st hst
                simp [hL] at hst

theorem Receive_decomp (cfg : Config) (p : Process) (rs : RandomSource) (sender : Pid)
    (msg : ScalableProtocolMessage) (p3 : Process) (effs : List Effect)
    (h : Receive cfg p rs sender msg = some (p3, effs)) :
    ∃ p1 ms e1 p2 ms2 e2,
      initMessageState cfg p rs msg.messageData = some (p1, ms, e1) ∧
      receiveStage cfg p1 sender msg ms = some (p2, ms2, e2) ∧
      storeMessageState p2 msg.messageData ms2 = some p3 ∧ effs = e1 ++ e2 := by
  unfold Receive at h
  cases hI : initMessageState cfg p rs msg.messageData with
  | none => simp [hI] at h
  | some x =>
    obtain ⟨p1, ms, e1⟩ := x
    simp only [hI] at h
    cases hS : receiveStage cfg p1 sender msg ms with
    | none => simp [hS] at h
    | some y =>
      obtain ⟨p2, ms2, e2⟩ := y
      simp only [hS] at h
      cases hSt : storeMessageState p2 msg.messageData ms2 with
      | none => simp [hSt] at h
      | some p3x =>
        simp only [hSt, Option.some.injEq, Prod.mk.injEq] at h
        obtain ⟨hp3, he⟩ := h
        exact ⟨p1, ms, e1, p2, ms2, e2, rfl, hS, hp3 ▸ hSt, he.symm⟩

theorem Receive_build (cfg : Config) (p : Process) (rs : RandomSource) (sender : Pid)
    (msg : ScalableProtocolMessage) (p1 : Process) (ms : MessageState) (e1 : List Effect)
    (p2 : Process) (ms2 : MessageState) (e2 : List Effect) (p3 : Process)
    (hI : initMessageState cfg p rs msg.messageData = some (p1, ms, e1))
    (hS : receiveStage cfg p1 sender msg ms = some (p2, ms2, e2))
    (hSt : storeMessageState p2 msg.messageData ms2 = some p3) :
    Receive cfg p rs sender msg = some (p3, e1 ++ e2) := by
  unfold Receive
  simp only [hI, hS, hSt]

theorem Broadcast_decomp (cfg : Config) (p : Process) (rs : RandomSource) (value : Value)
    (p3 : Process) (effs : List Effect)
    (h : Broadcast cfg p rs value = some (p3, effs)) :
    ∃ p1 ms e1 p2,
      initMessageState cfg p rs { author := p.pid, seqNumber := p.msgCounter, value := value } =
        some (p1, ms, e1) ∧
      storeMessageState p1 { author := p.pid, seqNumber := p.msgCounter, value := value }
        (broadcastGossip p1 ms { author := p.pid, seqNumber := p.msgCounter, value := value }).1 =
        some p2 ∧
      p3 = { p2 with msgCounter := p2.msgCounter + 1 } ∧
      effs = e1 ++
        (broadcastGossip p1 ms { author := p.pid, seqNumber := p.msgCounter, value := value }).2 := by
  unfold Broadcast at h
  cases hI : initMessageState cfg p rs
      { author := p.pid, seqNumber := p.msgCounter, value := value } with
  | none => simp [hI] at h
  | some x =>
    obtain ⟨p1, ms, e1⟩ := x
    simp only [hI] at h
    cases hSt : storeMessageState p1 { author := p.pid, seqNumber := p.msgCounter, value := value }
        (broadcastGossip p1 ms { author := p.pid, seqNumber := p.msgCounter, value := value }).1 with
    | none => simp [hSt] at h
    | some p2 =>
      simp only [hSt, Option.some.injEq, Prod.mk.injEq] at h
      obtain ⟨hp3, he⟩ := h
      exact ⟨p1, ms, e1, p2, rfl, hSt, hp3.symm, he.symm⟩

/-! Lemmas about the sieve short-circuit. -/

theorem sieve_noop_of_flag (cfg : Config) (p : Process) (ms : MessageState) (d : MessageData)
    (h : ms.sentReadyFromSieve = true) :
    maybeSendReadyFromSieve cfg p ms d = (ms, []) := by
  simp [maybeSendReadyFromSieve, sieveGuard, h]

theorem sieve_cases (cfg : Config) (p : Process) (ms : MessageState) (d : MessageData) :
    maybeSendReadyFromSieve cfg p ms d = (ms, []) ∨
    (sieveGuard cfg ms d = true ∧
     maybeSendReadyFromSieve cfg p ms d =
       ({ ms with readyMessagesSent := insertS ms.readyMessagesSent d.value,
                  sentReadyFromSieve := true },
        broadcastReady p
          { ms with readyMessagesSent := insertS ms.readyMessagesSent d.value } d)) := by
  by_cases hg : sieveGuard cfg ms d
  · right
    exact ⟨hg, by simp [maybeSendReadyFromSieve, hg]⟩
  · left
    simp [maybeSendReadyFromSieve, hg]

theorem sieve_fields (cfg : Config) (p : Process) (ms : MessageState) (d : MessageData) :
    (maybeSendReadyFromSieve cfg p ms d).1.receivedEcho = ms.receivedEcho ∧
    (maybeSendReadyFromSieve cfg p ms d).1.receivedReady = ms.receivedReady ∧
    (maybeSendReadyFromSieve cfg p ms d).1.echoMessagesStat = ms.echoMessagesStat ∧
    (maybeSendReadyFromSieve cfg p ms d).1.readySampleStat = ms.readySampleStat ∧
    (maybeSendReadyFromSieve cfg p ms d).1.deliverySampleStat = ms.deliverySampleStat ∧
    (maybeSendReadyFromSieve cfg p ms d).1.gossipSample = ms.gossipSample ∧
    (maybeSendReadyFromSieve cfg p ms d).1.echoSample = ms.echoSample ∧
    (maybeSendReadyFromSieve cfg p ms d).1.readySample = ms.readySample ∧
    (maybeSendReadyFromSieve cfg p ms d).1.deliverySample = ms.deliverySample ∧
    (maybeSendReadyFromSieve cfg p ms d).1.echoSubscriptionSet = ms.echoSubscriptionSet ∧
    (maybeSendReadyFromSieve cfg p ms d).1.readySubscriptionSet = ms.readySubscriptionSet ∧
    (maybeSendReadyFromSieve cfg p ms d).1.gossipMessage = ms.gossipMessage ∧
    (maybeSendReadyFromSieve cfg p ms d).1.echoMessage = ms.echoMessage := by
  by_cases hg : sieveGuard cfg ms d <;> simp [maybeSendReadyFromSieve, hg]

theorem sieve_flag_mono (cfg : Config) (p : Process) (ms : MessageState) (d : MessageData)
    (h : ms.sentReadyFromSieve = true) :
    (maybeSendReadyFromSieve cfg p ms d).1.sentReadyFromSieve = true := by
  rw [sieve_noop_of_flag cfg p ms d h]
  exact h

theorem sieve_flag_up (cfg : Config) (p : Process) (ms : MessageState) (d : MessageData) :
    (maybeSendReadyFromSieve cfg p ms d).1.sentReadyFromSieve =
      (sieveGuard cfg ms d || ms.sentReadyFromSieve) := by
  by_cases hg : sieveGuard cfg ms d <;> simp [maybeSendReadyFromSieve, hg]

/-! Lemmas about delivered and deliver. -/

theorem some_triple_inv {p q : Process} {m1 m2 : MessageState} {e1 e2 : List Effect}
    (h : some (p, m1, e1) = some (q, m2, e2)) : p = q ∧ m1 = m2 ∧ e1 = e2 := by
  simp only [Option.some.injEq, Prod.mk.injEq] at h
  exact ⟨h.1, h.2.1, h.2.2⟩

theorem delivered_false (p : Process) (d : MessageData)
    (h : (delivered p d).1 = false) :
    lookup2 p.deliveredMessages d.author d.seqNumber = none := by
  cases hl : lookup2 p.deliveredMessages d.author d.seqNumber with
  | none => rfl
  | some dv => simp [delivered, hl] at h

theorem delivered_true (p : Process) (d : MessageData) (v : Value)
    (h : lookup2 p.deliveredMessages d.author d.seqNumber = some v) (hne : v ≠ d.value) :
    delivered p d = (true, [Effect.logDuplicateSeq p.pid]) := by
  simp [delivered, h, hne]

theorem deliver_inv (p : Process) (d : MessageData) (p1 : Process) (e : List Effect)
    (h : deliver p d = some (p1, e)) :
    p1.pid = p.pid ∧ p1.pids = p.pids ∧ p1.msgCounter = p.msgCounter ∧
    p1.messagesLog = p.messagesLog ∧
    (∀ a s v, lookup2 p.deliveredMessages a s = some v →
      (a = d.author ∧ s = d.seqNumber) ∨ lookup2 p1.deliveredMessages a s = some v) ∧
    lookup2 p1.deliveredMessages d.author d.seqNumber = some d.value := by
  unfold deliver at h
  cases hs : set2 p.deliveredMessages d.author d.seqNumber d.value with
  | none => simp [hs] at h
  | some dm =>
    simp only [hs, Option.some.injEq, Prod.mk.injEq] at h
    obtain ⟨hp, -⟩ := h
    rw [← hp]
    refine ⟨rfl, rfl, rfl, rfl, ?_, lookup2_set2_self _ _ _ _ _ hs⟩
    intro a s v hv
    by_cases hk : a = d.author ∧ s = d.seqNumber
    · exact Or.inl hk
    · right
      have hne : a ≠ d.author ∨ s ≠ d.seqNumber := by
        by_contra hc
        push_neg at hc
        exact hk hc
      rw [lookup2_set2_ne _ _ _ _ _ _ _ hs hne]
      exact hv

/-! Field lemmas for readyAmplify and the sieve. -/

theorem readyAmplify_sent (cfg : Config) (p : Process) (sender : Pid) (ms1 : MessageState)
    (d : MessageData) :
    (readyAmplify cfg p sender ms1 d).1.sentReadyFromSieve = ms1.sentReadyFromSieve := by
  unfold readyAmplify
  split
  · dsimp only
    split <;> rfl
  · rfl

theorem readyAmplify_gossipMessage (cfg : Config) (p : Process) (sender : Pid)
    (ms1 : MessageState) (d : MessageData) :
    (readyAmplify cfg p sender ms1 d).1.gossipMessage = ms1.gossipMessage := by
  unfold readyAmplify
  split
  · dsimp only
    split <;> rfl
  · rfl

theorem readyAmplify_echoMessage (cfg : Config) (p : Process) (sender : Pid)
    (ms1 : MessageState) (d : MessageData) :
    (readyAmplify cfg p sender ms1 d).1.echoMessage = ms1.echoMessage := by
  unfold readyAmplify
  split
  · dsimp only
    split <;> rfl
  · rfl

theorem readyAmplify_deliverySample (cfg : Config) (p : Process) (sender : Pid)
    (ms1 : MessageState) (d : MessageData) :
    (readyAmplify cfg p sender ms1 d).1.deliverySample = ms1.deliverySample := by
  unfold readyAmplify
  split
  · dsimp only
    split <;> rfl
  · rfl

theorem readyAmplify_receivedReady (cfg : Config) (p : Process) (sender : Pid)
    (ms1 : MessageState) (d : MessageData) :
    (readyAmplify cfg p sender ms1 d).1.receivedReady = ms1.receivedReady := by
  unfold readyAmplify
  split
  · dsimp only
    split <;> rfl
  · rfl

theorem readyAmplify_receivedEcho (cfg : Config) (p : Process) (sender : Pid)
    (ms1 : MessageState) (d : MessageData) :
    (readyAmplify cfg p sender ms1 d).1.receivedEcho = ms1.receivedEcho := by
  unfold readyAmplify
  split
  · dsimp only
    split <;> rfl
  · rfl

theorem readyAmplify_echoSample (cfg : Config) (p : Process) (sender : Pid)
    (ms1 : MessageState) (d : MessageData) :
    (readyAmplify cfg p sender ms1 d).1.echoSample = ms1.echoSample := by
  unfold readyAmplify
  split
  · dsimp only
    split <;> rfl
  · rfl

theorem sieve_gossipMessage (cfg : Config) (p : Process) (ms : MessageState) (d : MessageData) :
    (maybeSendReadyFromSieve cfg p ms d).1.gossipMessage = ms.gossipMessage := by
  by_cases hg : sieveGuard cfg ms d <;> simp [maybeSendReadyFromSieve, hg]

theorem sieve_echoMessage (cfg : Config) (p : Process) (ms : MessageState) (d : MessageData) :
    (maybeSendReadyFromSieve cfg p ms d).1.echoMessage = ms.echoMessage := by
  by_cases hg : sieveGuard cfg ms d <;> simp [maybeSendReadyFromSieve, hg]

theorem sieve_receivedEcho (cfg : Config) (p : Process) (ms : MessageState) (d : MessageData) :
    (maybeSendReadyFromSieve cfg p ms d).1.receivedEcho = ms.receivedEcho := by
  by_cases hg : sieveGuard cfg ms d <;> simp [maybeSendReadyFromSieve, hg]

theorem sieve_echoSample (cfg : Config) (p : Process) (ms : MessageState) (d : MessageData) :
    (maybeSendReadyFromSieve cfg p ms d).1.echoSample = ms.echoSample := by
  by_cases hg : sieveGuard cfg ms d <;> simp [maybeSendReadyFromSieve, hg]

/-! The central invariance lemma for one stage step. -/

theorem receiveStage_inv (cfg : Config) (p : Process) (sender : Pid)
    (msg : ScalableProtocolMessage) (ms : MessageState) (p2 : Process) (ms2 : MessageState)
    (e : List Effect) (h : receiveStage cfg p sender msg ms = some (p2, ms2, e)) :
    (p2.pid = p.pid ∧ p2.pids = p.pids ∧ p2.msgCounter = p.msgCounter ∧
     p2.messagesLog = p.messagesLog) ∧
    (∀ a s v, lookup2 p.deliveredMessages a s = some v →
      lookup2 p2.deliveredMessages a s = some v) ∧
    (ms.sentReadyFromSieve = true → ms2.sentReadyFromSieve = true) ∧
    (∀ gm, ms.gossipMessage = some gm → ms2.gossipMessage = some gm) ∧
    (ms.gossipMessage ≠ none → ms2.echoMessage = ms.echoMessage) := by
  obtain ⟨stg, d⟩ := msg
  cases stg
  case GOSSIP_SUBSCRIBE =>
    simp only [receiveStage] at h
    split at h
    · obtain ⟨hp, hm, -⟩ := some_triple_inv h
      subst hp
      subst hm
      exact ⟨⟨rfl, rfl, rfl, rfl⟩, fun a s v hv => hv, fun hs => hs, fun gm hg => hg,
        fun _ => rfl⟩
    · split at h <;>
      · obtain ⟨hp, hm, -⟩ := some_triple_inv h
        subst hp
        subst hm
        exact ⟨⟨rfl, rfl, rfl, rfl⟩, fun a s v hv => hv, fun hs => hs, fun gm hg => hg,
          fun _ => rfl⟩
  case GOSSIP =>
    simp only [receiveStage] at h
    split at h
    · obtain ⟨hp, hm, -⟩ := some_triple_inv h
      subst hp
      subst hm
      exact ⟨⟨rfl, rfl, rfl, rfl⟩, fun a s v hv => hv, fun hs => hs, fun gm hg => hg,
        fun _ => rfl⟩
    · rename_i hgm
      obtain ⟨hp, hm, -⟩ := some_triple_inv h
      subst hp
      subst hm
      refine ⟨⟨rfl, rfl, rfl, rfl⟩, fun a s v hv => hv, ?_, ?_, ?_⟩
      · intro hs
        apply sieve_flag_mono
        simp [broadcastGossip, hs]
      · intro gm hg
        rw [hgm] at hg
        cases hg
      · intro hne
        exact absurd hgm hne
  case ECHO_SUBSCRIBE =>
    simp only [receiveStage] at h
    split at h
    · obtain ⟨hp, hm, -⟩ := some_triple_inv h
      subst hp
      subst hm
      exact ⟨⟨rfl, rfl, rfl, rfl⟩, fun a s v hv => hv, fun hs => hs, fun gm hg => hg,
        fun _ => rfl⟩
    · split at h <;>
      · obtain ⟨hp, hm, -⟩ := some_triple_inv h
        subst hp
        subst hm
        exact ⟨⟨rfl, rfl, rfl, rfl⟩, fun a s v hv => hv, fun hs => hs, fun gm hg => hg,
          fun _ => rfl⟩
  case ECHO =>
    simp only [receiveStage] at h
    split at h
    · obtain ⟨hp, hm, -⟩ := some_triple_inv h
      subst hp
      subst hm
      exact ⟨⟨rfl, rfl, rfl, rfl⟩, fun a s v hv => hv, fun hs => hs, fun gm hg => hg,
        fun _ => rfl⟩
    · obtain ⟨hp, hm, -⟩ := some_triple_inv h
      subst hp
      subst hm
      refine ⟨⟨rfl, rfl, rfl, rfl⟩, fun a s v hv => hv, ?_, ?_, ?_⟩
      · intro hs
        exact sieve_flag_mono _ _ _ _ hs
      · intro gm hg
        rw [sieve_gossipMessage]
        exact hg
      · intro hne
        rw [sieve_echoMessage]
  case READY_SUBSCRIBE =>
    simp only [receiveStage] at h
    split at h
    · obtain ⟨hp, hm, -⟩ := some_triple_inv h
      subst hp
      subst hm
      exact ⟨⟨rfl, rfl, rfl, rfl⟩, fun a s v hv => hv, fun hs => hs, fun gm hg => hg,
        fun _ => rfl⟩
    · obtain ⟨hp, hm, -⟩ := some_triple_inv h
      subst hp
      subst hm
      exact ⟨⟨rfl, rfl, rfl, rfl⟩, fun a s v hv => hv, fun hs => hs, fun gm hg => hg,
        fun _ => rfl⟩
  case READY =>
    simp only [receiveStage] at h
    split at h
    · obtain ⟨hp, hm, -⟩ := some_triple_inv h
      subst hp
      subst hm
      exact ⟨⟨rfl, rfl, rfl, rfl⟩, fun a s v hv => hv, fun hs => hs, fun gm hg => hg,
        fun _ => rfl⟩
    · split at h
      · simp at h
      · rename_i inner hinner
        split at h
        · split at h
          · rename_i hmem hcond
            split at h
            · simp at h
            · rename_i p1 effsA hDel
              obtain ⟨hp, hm, -⟩ := some_triple_inv h
              subst hp
              subst hm
              obtain ⟨f1, f2, f3, f4, fpres, -⟩ := deliver_inv p d p1 effsA hDel
              refine ⟨⟨f1, f2, f3, f4⟩, ?_, ?_, ?_, ?_⟩
              · intro a s v hv
                rcases fpres a s v hv with ⟨ha, hs2⟩ | hok
                · rw [Bool.and_eq_true] at hcond
                  have hdf : (delivered p d).1 = false := by
                    have hx := hcond.1
                    simp at hx
                    exact hx
                  have hnone := delivered_false p d hdf
                  rw [ha, hs2] at hv
                  rw [hv] at hnone
                  cases hnone
                · exact hok
              · intro hs
                show (readyAmplify cfg p sender _ d).1.sentReadyFromSieve = true
                rw [readyAmplify_sent]
                exact hs
              · intro gm hg
                show (readyAmplify cfg p sender _ d).1.gossipMessage = some gm
                rw [readyAmplify_gossipMessage]
                exact hg
              · intro hne
                show (readyAmplify cfg p sender _ d).1.echoMessage = ms.echoMessage
                rw [readyAmplify_echoMessage]
          · obtain ⟨hp, hm, -⟩ := some_triple_inv h
            subst hp
            subst hm
            refine ⟨⟨rfl, rfl, rfl, rfl⟩, fun a s v hv => hv, ?_, ?_, ?_⟩
            · intro hs
              show (readyAmplify cfg p sender _ d).1.sentReadyFromSieve = true
              rw [readyAmplify_sent]
              exact hs
            · intro gm hg
              show (readyAmplify cfg p sender _ d).1.gossipMessage = some gm
              rw [readyAmplify_gossipMessage]
              exact hg
            · intro hne
              show (readyAmplify cfg p sender _ d).1.echoMessage = ms.echoMessage
              rw [readyAmplify_echoMessage]
        · obtain ⟨hp, hm, -⟩ := some_triple_inv h
          subst hp
          subst hm
          refine ⟨⟨rfl, rfl, rfl, rfl⟩, fun a s v hv => hv, ?_, ?_, ?_⟩
          · intro hs
            rw [readyAmplify_sent]
            exact hs
          · intro gm hg
            rw [readyAmplify_gossipMessage]
            exact hg
          · intro hne
            rw [readyAmplify_echoMessage]

/-! Composition lemmas at the level of Receive and Broadcast. -/

theorem storeMessageState_inv (p : Process) (d : MessageData) (ms : MessageState) (p3 : Process)
    (h : storeMessageState p d ms = some p3) :
    p3.pid = p.pid ∧ p3.pids = p.pids ∧ p3.msgCounter = p.msgCounter ∧
    p3.deliveredMessages = p.deliveredMessages ∧
    lookup2 p3.messagesLog d.author d.seqNumber = some ms ∧
    (∀ a s, (a ≠ d.author ∨ s ≠ d.seqNumber) →
      lookup2 p3.messagesLog a s = lookup2 p.messagesLog a s) := by
  unfold storeMessageState at h
  cases hs : set2 p.messagesLog d.author d.seqNumber ms with
  | none => simp [hs] at h
  | some log =>
    simp only [hs, Option.some.injEq] at h
    rw [← h]
    exact ⟨rfl, rfl, rfl, rfl, lookup2_set2_self _ _ _ _ _ hs,
      fun a s hne => lookup2_set2_ne _ _ _ _ _ _ _ hs hne⟩

theorem Receive_delivered_mono (cfg : Config) (p : Process) (rs : RandomSource) (sender : Pid)
    (msg : ScalableProtocolMessage) (p3 : Process) (effs : List Effect) (a : Pid) (s : Int)
    (v : Value) (hv : lookup2 p.deliveredMessages a s = some v)
    (h : Receive cfg p rs sender msg = some (p3, effs)) :
    lookup2 p3.deliveredMessages a s = some v := by
  obtain ⟨p1, ms, e1, p2, ms2, e2, hI, hS, hSt, -⟩ := Receive_decomp _ _ _ _ _ _ _ h
  obtain ⟨-, -, -, hIdel, -, -, -⟩ := initMessageState_inv _ _ _ _ _ _ _ hI
  obtain ⟨-, hpres, -, -, -⟩ := receiveStage_inv _ _ _ _ _ _ _ _ hS
  obtain ⟨-, -, -, hStdel, -, -⟩ := storeMessageState_inv _ _ _ _ hSt
  rw [hStdel]
  apply hpres
  rw [hIdel]
  exact hv

theorem Broadcast_delivered_mono (cfg : Config) (p : Process) (rs : RandomSource)
    (value : Value) (p3 : Process) (effs : List Effect) (a : Pid) (s : Int) (v : Value)
    (hv : lookup2 p.deliveredMessages a s = some v)
    (h : Broadcast cfg p rs value = some (p3, effs)) :
    lookup2 p3.deliveredMessages a s = some v := by
  obtain ⟨p1, ms, e1, p2, hI, hSt, hp3, -⟩ := Broadcast_decomp _ _ _ _ _ _ h
  obtain ⟨-, -, -, hIdel, -, -, -⟩ := initMessageState_inv _ _ _ _ _ _ _ hI
  obtain ⟨-, -, -, hStdel, -, -⟩ := storeMessageState_inv _ _ _ _ hSt
  rw [hp3]
  show lookup2 p2.deliveredMessages a s = some v
  rw [hStdel, hIdel]
  exact hv

theorem Receive_key_mono (cfg : Config) (p : Process) (rs : RandomSource) (sender : Pid)
    (msg : ScalableProtocolMessage) (p3 : Process) (effs : List Effect) (a : Pid) (s : Int)
    (st st2 : MessageState)
    (h : Receive cfg p rs sender msg = some (p3, effs))
    (hst : lookup2 p.messagesLog a s = some st)
    (hst2 : lookup2 p3.messagesLog a s = some st2) :
    (st.sentReadyFromSieve = true → st2.sentReadyFromSieve = true) ∧
    (∀ gm, st.gossipMessage = some gm → st2.gossipMessage = some gm) ∧
    (∀ gm em, st.gossipMessage = some gm → st.echoMessage = some em →
      st2.echoMessage = some em) := by
  obtain ⟨p1, ms, e1, p2, ms2, e2, hI, hS, hSt, -⟩ := Receive_decomp _ _ _ _ _ _ _ h
  obtain ⟨-, -, -, -, hIk, hIpres, -⟩ := initMessageState_inv _ _ _ _ _ _ _ hI
  obtain ⟨⟨-, -, -, hSlog⟩, -, hflag, hgoss, hecho⟩ := receiveStage_inv _ _ _ _ _ _ _ _ hS
  obtain ⟨-, -, -, -, hStk, hStne⟩ := storeMessageState_inv _ _ _ _ hSt
  by_cases hk : a = msg.messageData.author ∧ s = msg.messageData.seqNumber
  · obtain ⟨ha, hs⟩ := hk
    have h1 : lookup2 p1.messagesLog a s = some st := hIpres a s st hst
    rw [ha, hs, hIk] at h1
    have hms : ms = st := Option.some.inj h1
    have h2 : lookup2 p3.messagesLog a s = some ms2 := by rw [ha, hs]; exact hStk
    rw [hst2] at h2
    have hms2 : st2 = ms2 := Option.some.inj h2
    subst hms
    subst hms2
    refine ⟨hflag, hgoss, fun gm em hg he => ?_⟩
    rw [hecho (by rw [hg]; exact fun hc => Option.noConfusion hc), he]
  · have hne : a ≠ msg.messageData.author ∨ s ≠ msg.messageData.seqNumber := by
      by_contra hc
      push_neg at hc
      exact hk hc
    have h1 : lookup2 p1.messagesLog a s = some st := hIpres a s st hst
    have hss : some st2 = some st := by
      rw [← hst2, hStne a s hne, hSlog, h1]
    have hss2 : st2 = st := Option.some.inj hss
    subst hss2
    exact ⟨fun x => x, fun gm hg => hg, fun gm em hg he => he⟩

theorem Broadcast_key_mono (cfg : Config) (p : Process) (rs : RandomSource) (value : Value)
    (p3 : Process) (effs : List Effect) (a : Pid) (s : Int) (st st2 : MessageState)
    (h : Broadcast cfg p rs value = some (p3, effs))
    (hst : lookup2 p.messagesLog a s = some st)
    (hst2 : lookup2 p3.messagesLog a s = some st2) :
    (st.sentReadyFromSieve = true → st2.sentReadyFromSieve = true) ∧
    (∀ em, st.echoMessage = some em → st2.echoMessage = some em) := by
  obtain ⟨p1, ms, e1, p2, hI, hSt, hp3, -⟩ := Broadcast_decomp _ _ _ _ _ _ h
  obtain ⟨-, -, -, -, hIk, hIpres, -⟩ := initMessageState_inv _ _ _ _ _ _ _ hI
  obtain ⟨-, -, -, -, hStk, hStne⟩ := storeMessageState_inv _ _ _ _ hSt
  have hlog3 : p3.messagesLog = p2.messagesLog := by rw [hp3]
  by_cases hk : a = p.pid ∧ s = p.msgCounter
  · obtain ⟨ha, hs⟩ := hk
    have h1 : lookup2 p1.messagesLog a s = some st := hIpres a s st hst
    rw [ha, hs, hIk] at h1
    have hms : ms = st := Option.some.inj h1
    have h2 : lookup2 p3.messagesLog a s =
        some (broadcastGossip p1 ms
          { author := p.pid, seqNumber := p.msgCounter, value := value }).1 := by
      rw [hlog3, ha, hs]
      exact hStk
    rw [hst2] at h2
    have hms2 : st2 = (broadcastGossip p1 ms
        { author := p.pid, seqNumber := p.msgCounter, value := value }).1 :=
      Option.some.inj h2
    subst hms
    rw [hms2]
    constructor
    · intro hs1
      simp [broadcastGossip]
      exact hs1
    · intro em he
      simp [broadcastGossip]
      exact he
  · have hne : a ≠ p.pid ∨ s ≠ p.msgCounter := by
      by_contra hc
      push_neg at hc
      exact hk hc
    have h1 : lookup2 p1.messagesLog a s = some st := hIpres a s st hst
    have hss : some st2 = some st := by
      rw [← hst2, hlog3, hStne a s hne, h1]
    have hss2 : st2 = st := Option.some.inj hss
    subst hss2
    exact ⟨fun x => x, fun em he => he⟩

/-! Stage-specific computation lemmas. -/

theorem receiveStage_gossip_cached (cfg : Config) (p : Process) (sender : Pid) (d : MessageData)
    (ms : MessageState) (gm : ScalableProtocolMessage) (hgm : ms.gossipMessage = some gm) :
    receiveStage cfg p sender { stage := Stage.GOSSIP, messageData := d } ms =
      some (p, ms, []) := by
  simp [receiveStage, hgm]

theorem receiveStage_echo_drop (cfg : Config) (p : Process) (sender : Pid) (d : MessageData)
    (ms : MessageState) (hc : sender ∉ ms.echoSample ∨ sender ∈ ms.receivedEcho) :
    receiveStage cfg p sender { stage := Stage.ECHO, messageData := d } ms =
      some (p, ms, []) := by
  simp only [receiveStage]
  rw [if_pos hc]

theorem receiveStage_echo_accept (cfg : Config) (p : Process) (sender : Pid) (d : MessageData)
    (ms : MessageState) (h1 : sender ∈ ms.echoSample) (h2 : sender ∉ ms.receivedEcho) :
    receiveStage cfg p sender { stage := Stage.ECHO, messageData := d } ms =
      some (p,
        (maybeSendReadyFromSieve cfg p
          { ms with receivedEcho := insertS ms.receivedEcho sender,
                    echoMessagesStat := incStat ms.echoMessagesStat d.value } d).1,
        (maybeSendReadyFromSieve cfg p
          { ms with receivedEcho := insertS ms.receivedEcho sender,
                    echoMessagesStat := incStat ms.echoMessagesStat d.value } d).2) := by
  simp only [receiveStage]
  rw [if_neg (fun hor => Or.elim hor (fun hn => hn h1) (fun he => h2 he))]

theorem receiveStage_ready_subscribe_drop (cfg : Config) (p : Process) (sender : Pid)
    (d : MessageData) (ms : MessageState) (h : sender ∈ ms.readySubscriptionSet) :
    receiveStage cfg p sender { stage := Stage.READY_SUBSCRIBE, messageData := d } ms =
      some (p, ms, []) := by
  simp only [receiveStage]
  rw [if_pos h]

theorem receiveStage_ready_subscribe_new (cfg : Config) (p : Process) (sender : Pid)
    (d : MessageData) (ms : MessageState) (h : sender ∉ ms.readySubscriptionSet) :
    receiveStage cfg p sender { stage := Stage.READY_SUBSCRIBE, messageData := d } ms =
      some (p, { ms with readySubscriptionSet := insertS ms.readySubscriptionSet sender },
        ms.readyMessagesSent.map (fun v =>
          Effect.send sender
            { stage := Stage.READY,
              messageData := { author := d.author, seqNumber := d.seqNumber, value := v } }
            p.pid)) := by
  simp only [receiveStage]
  rw [if_neg h]

theorem receiveStage_ready_dup (cfg : Config) (p : Process) (sender : Pid) (d : MessageData)
    (ms : MessageState)
    (h : ((lookupA ms.receivedReady sender).getD []).contains d.value = true) :
    receiveStage cfg p sender { stage := Stage.READY, messageData := d } ms =
      some (p, ms, []) := by
  simp only [receiveStage]
  rw [if_pos h]

theorem receiveStage_ready_nil_panic (cfg : Config) (p : Process) (sender : Pid)
    (d : MessageData) (ms : MessageState) (hnone : lookupA ms.receivedReady sender = none) :
    receiveStage cfg p sender { stage := Stage.READY, messageData := d } ms = none := by
  simp [receiveStage, hnone]

theorem deliver_isSome (p : Process) (d : MessageData)
    (h : (lookupA p.deliveredMessages d.author).isSome) : (deliver p d).isSome := by
  cases hl : lookupA p.deliveredMessages d.author with
  | none => rw [hl] at h; simp at h
  | some inner => simp [deliver, set2, hl]

theorem receiveStage_ready_total (cfg : Config) (p : Process) (sender : Pid) (d : MessageData)
    (ms : MessageState) (inner : List Value)
    (hinner : lookupA ms.receivedReady sender = some inner)
    (hdel : (lookupA p.deliveredMessages d.author).isSome) :
    (receiveStage cfg p sender { stage := Stage.READY, messageData := d } ms).isSome := by
  simp only [receiveStage]
  split
  · simp
  · simp only [hinner]
    split
    · split
      · have hds := deliver_isSome p d hdel
        cases hdv : deliver p d with
        | none => rw [hdv] at hds; simp at hds
        | some x =>
          obtain ⟨p1, ea⟩ := x
          simp [hdv]
      · simp
    · simp

theorem receiveStage_ready_conflict (cfg : Config) (p : Process) (sender : Pid)
    (d : MessageData) (ms : MessageState) (inner : List Value) (w : Value)
    (hinner : lookupA ms.receivedReady sender = some inner)
    (hcont : inner.contains d.value = false)
    (hdsamp : sender ∈ ms.deliverySample)
    (hw : lookup2 p.deliveredMessages d.author d.seqNumber = some w)
    (hwne : w ≠ d.value) :
    receiveStage cfg p sender { stage := Stage.READY, messageData := d } ms =
      some (p,
        { (readyAmplify cfg p sender
            { ms with receivedReady := setA ms.receivedReady sender (insertS inner d.value) }
            d).1 with
          deliverySampleStat := incStat
            (readyAmplify cfg p sender
              { ms with receivedReady := setA ms.receivedReady sender (insertS inner d.value) }
              d).1.deliverySampleStat d.value },
        (readyAmplify cfg p sender
          { ms with receivedReady := setA ms.receivedReady sender (insertS inner d.value) }
          d).2 ++ [Effect.logDuplicateSeq p.pid]) := by
  simp only [receiveStage, hinner, Option.getD_some]
  rw [if_neg (by rw [hcont]; exact fun hc => Bool.noConfusion hc)]
  rw [if_pos (show sender ∈ _ from by rw [readyAmplify_deliverySample]; exact hdsamp)]
  rw [delivered_true p d w hw hwne]
  simp

/-! Claim theorems. -/

/-- Claim C1 (code bug): in the READY handler the amplification broadcast is
not guarded by readyMessagesSent. With ReadyThreshold one, after a first READY
from b put value five into readyMessagesSent and broadcast it, a second READY
with the same value from c broadcasts READY(five) again even though five is
already recorded in readyMessagesSent, so amplification is not at-most-once. -/
theorem C1_ready_amplification_unguarded :
    readySentAfter ampStep2 = some [5] ∧
    effsAfter ampStep2 = [Effect.send "c" (mkMsg Stage.READY "b" 0 5) "a"] ∧
    effsAfter ampStep3 = [Effect.send "c" (mkMsg Stage.READY "b" 0 5) "a"] := by
  refine ⟨by decide, by decide, by decide⟩

/-- Claim C4, counterexample: with two participants and requested size two, a
colliding random stream makes Process.sample return a single-element set, not
a set of size min two two. -/
theorem C4_sample_size_counterexample :
    owP0.pids.length = 2 ∧ owCfg.ProcessCount = 2 ∧
    sample owCfg owP0 (constStream 0) Stage.ECHO_SUBSCRIBE
      { author := "a", seqNumber := 0, value := 0 } 2 =
      some (["a"], [Effect.send "a" (mkMsg Stage.ECHO_SUBSCRIBE "a" 0 0) "a"]) ∧
    (["a"] : List Pid).length ≠ min 2 owCfg.ProcessCount := by
  refine ⟨by decide, by decide, by decide, by decide⟩

/-- Claim C5, counterexample: an inbound GOSSIP forged with the own pid as
author caches a gossipMessage with value one for key (a, 0); the subsequent
local Broadcast of value two re-uses key (a, 0) and overwrites the cached
gossipMessage with different MessageData. -/
theorem C5_broadcast_overwrites_gossip_cache :
    gossipCacheAfter owStep1 = some (some (mkMsg Stage.GOSSIP "a" 0 1)) ∧
    gossipCacheAfter owStep2 = some (some (mkMsg Stage.GOSSIP "a" 0 2)) ∧
    ({ author := "a", seqNumber := 0, value := 1 } : MessageData) ≠
      { author := "a", seqNumber := 0, value := 2 } := by
  refine ⟨by decide, by decide, by decide⟩

/-- Claim C6: an inbound GOSSIP for a key whose gossipMessage is already
cached leaves the whole engine state unchanged and sends nothing. -/
theorem C6_gossip_repeat_noop (cfg : Config) (p : Process) (rs : RandomSource) (sender : Pid)
    (d : MessageData) (ms : MessageState) (gm : ScalableProtocolMessage)
    (hms : lookup2 p.messagesLog d.author d.seqNumber = some ms)
    (hgm : ms.gossipMessage = some gm) :
    Receive cfg p rs sender { stage := Stage.GOSSIP, messageData := d } = some (p, []) := by
  have hI := initMessageState_existing cfg p rs d ms hms
  have hS := receiveStage_gossip_cached cfg p sender d ms gm hgm
  have hSt := storeMessageState_self p d ms hms
  have hR := Receive_build cfg p rs sender { stage := Stage.GOSSIP, messageData := d }
    p ms [] p ms [] p hI hS hSt
  simpa using hR

/-- Witness for C6 at a concrete process and message. -/
theorem C6_gossip_repeat_noop_witness :
    Receive owCfg c6P owRs "b"
      { stage := Stage.GOSSIP, messageData := { author := "a", seqNumber := 0, value := 1 } } =
      some (c6P, []) :=
  C6_gossip_repeat_noop owCfg c6P owRs "b" { author := "a", seqNumber := 0, value := 1 } c6MS
    (mkMsg Stage.GOSSIP "a" 0 1) (by decide) (by decide)

/-- Claim C10: getRandomPid is well-defined for every random draw exactly when
ProcessCount is positive and the pid list is at least that long, and
InitProcess installs a pid list of exactly the supplied length. -/
theorem C10_random_pid_welldefined :
    (∀ cfg p, (∀ r, (getRandomPid cfg p r).isSome) ↔
      (0 < cfg.ProcessCount ∧ cfg.ProcessCount ≤ p.pids.length)) ∧
    (∀ pid pids, (InitProcess pid pids).pids.length = pids.length) := by
  constructor
  · intro cfg p
    constructor
    · intro h
      have hpc : cfg.ProcessCount ≠ 0 := by
        intro hz
        have h0 := h 0
        rw [getRandomPid, if_pos hz] at h0
        simp at h0
      refine ⟨Nat.pos_of_ne_zero hpc, ?_⟩
      by_contra hlen
      push_neg at hlen
      have hl := h p.pids.length
      rw [getRandomPid, if_neg hpc, Nat.mod_eq_of_lt hlen,
        List.get?_eq_none.mpr (le_refl _)] at hl
      simp at hl
    · rintro ⟨h1, h2⟩ r
      rw [getRandomPid, if_neg (Nat.pos_iff_ne_zero.mp h1)]
      have hlt : r % cfg.ProcessCount < p.pids.length :=
        lt_of_lt_of_le (Nat.mod_lt r h1) h2
      rw [List.get?_eq_get hlt]
      simp
  · intro pid pids
    simp [InitProcess]

/-- Witness for C10 at a concrete configuration and process. -/
theorem C10_random_pid_welldefined_witness :
    (getRandomPid owCfg owP0 5).isSome :=
  ((C10_random_pid_welldefined.1 owCfg owP0).mpr (by decide)) 5

/-- Claim C2: deliveredMessages entries, once set, are never overwritten by
any later Receive or Broadcast invocation; an inbound READY whose value
conflicts with the delivered one and whose sender counts into deliverySample
logs the duplicated-seq attack while processing continues and the stored
value survives. -/
theorem C2_delivered_value_stable :
    (∀ cfg p rs sender msg p3 effs a s v,
      lookup2 p.deliveredMessages a s = some v →
      Receive cfg p rs sender msg = some (p3, effs) →
      lookup2 p3.deliveredMessages a s = some v) ∧
    (∀ cfg p rs value p3 effs a s v,
      lookup2 p.deliveredMessages a s = some v →
      Broadcast cfg p rs value = some (p3, effs) →
      lookup2 p3.deliveredMessages a s = some v) ∧
    (∀ cfg p rs sender d ms inner w,
      lookup2 p.messagesLog d.author d.seqNumber = some ms →
      lookupA ms.receivedReady sender = some inner →
      inner.contains d.value = false →
      sender ∈ ms.deliverySample →
      lookup2 p.deliveredMessages d.author d.seqNumber = some w →
      w ≠ d.value →
      ∀ p3 effs,
        Receive cfg p rs sender { stage := Stage.READY, messageData := d } =
          some (p3, effs) →
        Effect.logDuplicateSeq p.pid ∈ effs ∧
        lookup2 p3.deliveredMessages d.author d.seqNumber = some w) ∧
    (∀ cfg p rs sender d ms inner w,
      lookup2 p.messagesLog d.author d.seqNumber = some ms →
      lookupA ms.receivedReady sender = some inner →
      inner.contains d.value = false →
      sender ∈ ms.deliverySample →
      lookup2 p.deliveredMessages d.author d.seqNumber = some w →
      w ≠ d.value →
      (Receive cfg p rs sender { stage := Stage.READY, messageData := d }).isSome) := by
  refine ⟨?_, ?_, ?_, ?_⟩
  · intro cfg p rs sender msg p3 effs a s v hv h
    exact Receive_delivered_mono cfg p rs sender msg p3 effs a s v hv h
  · intro cfg p rs value p3 effs a s v hv h
    exact Broadcast_delivered_mono cfg p rs value p3 effs a s v hv h
  · intro cfg p rs sender d ms inner w hms hinner hcont hds hw hwne p3 effs hrec
    have hI := initMessageState_existing cfg p rs d ms hms
    have hS := receiveStage_ready_conflict cfg p sender d ms inner w hinner hcont hds hw hwne
    obtain ⟨innerLog, hoL, -⟩ := lookup2_some_outer _ _ _ _ hms
    have hcomp := Receive_build cfg p rs sender { stage := Stage.READY, messageData := d }
      p ms [] p _ _ _ hI hS (storeMessageState_eq p d _ innerLog hoL)
    rw [hcomp] at hrec
    simp only [Option.some.injEq, Prod.mk.injEq, List.nil_append] at hrec
    obtain ⟨hp3, heff⟩ := hrec
    subst hp3
    constructor
    · rw [← heff]
      simp
    · exact hw
  · intro cfg p rs sender d ms inner w hms hinner hcont hds hw hwne
    have hI := initMessageState_existing cfg p rs d ms hms
    have hS := receiveStage_ready_conflict cfg p sender d ms inner w hinner hcont hds hw hwne
    obtain ⟨innerLog, hoL, -⟩ := lookup2_some_outer _ _ _ _ hms
    have hcomp := Receive_build cfg p rs sender { stage := Stage.READY, messageData := d }
      p ms [] p _ _ _ hI hS (storeMessageState_eq p d _ innerLog hoL)
    rw [hcomp]
    rfl

/-- Witness for C2: the conflicting READY logs the attack and value seven
stays delivered. -/
theorem C2_delivered_value_stable_witness :
    Effect.logDuplicateSeq "a" ∈ effsAfter c2Step ∧
    lookup2 (procAfter c2Step c2P).deliveredMessages "a" 0 = some 7 :=
  C2_delivered_value_stable.2.2.1 owCfg c2P owRs "b"
    { author := "a", seqNumber := 0, value := 9 } c2MS [] 7
    (by decide) (by decide) (by decide) (by decide) (by decide) (by decide)
    (procAfter c2Step c2P) (effsAfter c2Step) (by decide)

/-- Claim C3: the sieve has an effect only when the flag is down, the echo
message is cached with the matching value and the echo statistic reached the
threshold; firing records the value and raises the flag, and the flag is
never reset by any later Receive or Broadcast invocation, so the path fires
at most once per key. -/
theorem C3_sieve_at_most_once :
    (∀ cfg p ms d, ms.sentReadyFromSieve = true →
      maybeSendReadyFromSieve cfg p ms d = (ms, [])) ∧
    (∀ cfg p ms d, maybeSendReadyFromSieve cfg p ms d ≠ (ms, []) →
      sieveGuard cfg ms d = true ∧
      (maybeSendReadyFromSieve cfg p ms d).1.sentReadyFromSieve = true ∧
      (maybeSendReadyFromSieve cfg p ms d).1.readyMessagesSent =
        insertS ms.readyMessagesSent d.value ∧
      (maybeSendReadyFromSieve cfg p ms d).2 =
        broadcastReady p
          { ms with readyMessagesSent := insertS ms.readyMessagesSent d.value } d) ∧
    (∀ cfg ms d, sieveGuard cfg ms d = true ↔
      (ms.sentReadyFromSieve = false ∧
       ∃ em, ms.echoMessage = some em ∧ d.value = em.messageData.value ∧
         cfg.EchoThreshold ≤ getStat ms.echoMessagesStat d.value)) ∧
    (∀ cfg p rs sender msg p3 effs a s st st2,
      Receive cfg p rs sender msg = some (p3, effs) →
      lookup2 p.messagesLog a s = some st →
      st.sentReadyFromSieve = true →
      lookup2 p3.messagesLog a s = some st2 →
      st2.sentReadyFromSieve = true) ∧
    (∀ cfg p rs value p3 effs a s st st2,
      Broadcast cfg p rs value = some (p3, effs) →
      lookup2 p.messagesLog a s = some st →
      st.sentReadyFromSieve = true →
      lookup2 p3.messagesLog a s = some st2 →
      st2.sentReadyFromSieve = true) := by
  refine ⟨?_, ?_, ?_, ?_, ?_⟩
  · intro cfg p ms d h
    exact sieve_noop_of_flag cfg p ms d h
  · intro cfg p ms d h
    by_cases hg : sieveGuard cfg ms d
    · refine ⟨hg, ?_, ?_, ?_⟩ <;> simp [maybeSendReadyFromSieve, hg]
    · exact absurd (by simp [maybeSendReadyFromSieve, hg]) h
  · intro cfg ms d
    cases he : ms.echoMessage with
    | none => simp [sieveGuard, he]
    | some em =>
      simp only [sieveGuard, he, Bool.and_eq_true, Bool.not_eq_true', beq_iff_eq,
        decide_eq_true_eq, Option.some.injEq]
      constructor
      · rintro ⟨⟨hs, hv⟩, ht⟩
        exact ⟨hs, em, rfl, hv, ht⟩
      · rintro ⟨hs, em2, hem, hv, ht⟩
        subst hem
        exact ⟨⟨hs, hv⟩, ht⟩
  · intro cfg p rs sender msg p3 effs a s st st2 h hst hflag hst2
    exact (Receive_key_mono cfg p rs sender msg p3 effs a s st st2 h hst hst2).1 hflag
  · intro cfg p rs value p3 effs a s st st2 h hst hflag hst2
    exact (Broadcast_key_mono cfg p rs value p3 effs a s st st2 h hst hst2).1 hflag

/-- Witness for C3: with the flag raised the sieve is a no-op. -/
theorem C3_sieve_at_most_once_witness :
    maybeSendReadyFromSieve owCfg owP0 c3MS { author := "a", seqNumber := 0, value := 1 } =
      (c3MS, []) :=
  C3_sieve_at_most_once.1 owCfg owP0 c3MS { author := "a", seqNumber := 0, value := 1 }
    (by decide)

/-- Claim C5 (amended): a cached gossipMessage is never replaced by any
Receive invocation; a cached echoMessage is never replaced by any Receive
invocation while the gossip cache is present; Broadcast never replaces a
cached echoMessage. The counterexample shows the remaining escape: a local
Broadcast overwriting the gossip cache of its own key. -/
theorem C5_caches_stable :
    (∀ cfg p rs sender msg p3 effs a s st st2 gm,
      Receive cfg p rs sender msg = some (p3, effs) →
      lookup2 p.messagesLog a s = some st →
      lookup2 p3.messagesLog a s = some st2 →
      st.gossipMessage = some gm →
      st2.gossipMessage = some gm) ∧
    (∀ cfg p rs sender msg p3 effs a s st st2 gm em,
      Receive cfg p rs sender msg = some (p3, effs) →
      lookup2 p.messagesLog a s = some st →
      lookup2 p3.messagesLog a s = some st2 →
      st.gossipMessage = some gm →
      st.echoMessage = some em →
      st2.echoMessage = some em) ∧
    (∀ cfg p rs value p3 effs a s st st2 em,
      Broadcast cfg p rs value = some (p3, effs) →
      lookup2 p.messagesLog a s = some st →
      lookup2 p3.messagesLog a s = some st2 →
      st.echoMessage = some em →
      st2.echoMessage = some em) := by
  refine ⟨?_, ?_, ?_⟩
  · intro cfg p rs sender msg p3 effs a s st st2 gm h hst hst2 hg
    exact (Receive_key_mono cfg p rs sender msg p3 effs a s st st2 h hst hst2).2.1 gm hg
  · intro cfg p rs sender msg p3 effs a s st st2 gm em h hst hst2 hg he
    exact (Receive_key_mono cfg p rs sender msg p3 effs a s st st2 h hst hst2).2.2 gm em hg he
  · intro cfg p rs value p3 effs a s st st2 em h hst hst2 he
    exact (Broadcast_key_mono cfg p rs value p3 effs a s st st2 h hst hst2).2 em he

/-- Witness for C5 at a concrete process with a cached gossipMessage. -/
theorem C5_caches_stable_witness :
    c6MS.gossipMessage = some (mkMsg Stage.GOSSIP "a" 0 1) :=
  C5_caches_stable.1 owCfg c6P owRs "b" (mkMsg Stage.ECHO "a" 0 1)
    (procAfter c5Step c6P) (effsAfter c5Step) "a" 0 c6MS c6MS (mkMsg Stage.GOSSIP "a" 0 1)
    (by decide) (by decide) (by decide) (by decide)

/-- Claim C7: an inbound ECHO is counted exactly when the sender is in
echoSample and not yet in receivedEcho: otherwise the handler leaves the
state unchanged and sends nothing; when counted it marks the sender,
increments the echo statistic and runs the sieve; and processing the same
ECHO twice yields exactly the state of processing it once. -/
theorem C7_echo_accept_iff_idempotent :
    (∀ cfg p rs sender d ms,
      lookup2 p.messagesLog d.author d.seqNumber = some ms →
      (sender ∉ ms.echoSample ∨ sender ∈ ms.receivedEcho) →
      Receive cfg p rs sender { stage := Stage.ECHO, messageData := d } = some (p, [])) ∧
    (∀ cfg p rs sender d ms,
      lookup2 p.messagesLog d.author d.seqNumber = some ms →
      sender ∈ ms.echoSample →
      sender ∉ ms.receivedEcho →
      (Receive cfg p rs sender { stage := Stage.ECHO, messageData := d }).isSome ∧
      ∀ p3 effs,
        Receive cfg p rs sender { stage := Stage.ECHO, messageData := d } = some (p3, effs) →
        effs = (maybeSendReadyFromSieve cfg p
            { ms with receivedEcho := insertS ms.receivedEcho sender,
                      echoMessagesStat := incStat ms.echoMessagesStat d.value } d).2 ∧
        lookup2 p3.messagesLog d.author d.seqNumber =
          some (maybeSendReadyFromSieve cfg p
              { ms with receivedEcho := insertS ms.receivedEcho sender,
                        echoMessagesStat := incStat ms.echoMessagesStat d.value } d).1) ∧
    (∀ cfg p rs rs2 sender m p1 e1,
      m.stage = Stage.ECHO →
      Receive cfg p rs sender m = some (p1, e1) →
      Receive cfg p1 rs2 sender m = some (p1, [])) := by
  refine ⟨?_, ?_, ?_⟩
  · intro cfg p rs sender d ms hms hc
    have hI := initMessageState_existing cfg p rs d ms hms
    have hS := receiveStage_echo_drop cfg p sender d ms hc
    have hSt := storeMessageState_self p d ms hms
    simpa using Receive_build cfg p rs sender { stage := Stage.ECHO, messageData := d }
      p ms [] p ms [] p hI hS hSt
  · intro cfg p rs sender d ms hms h1 h2
    have hI := initMessageState_existing cfg p rs d ms hms
    have hS := receiveStage_echo_accept cfg p sender d ms h1 h2
    obtain ⟨innerLog, hoL, -⟩ := lookup2_some_outer _ _ _ _ hms
    have hcomp := Receive_build cfg p rs sender { stage := Stage.ECHO, messageData := d }
      p ms [] p _ _ _ hI hS (storeMessageState_eq p d _ innerLog hoL)
    constructor
    · rw [hcomp]
      rfl
    · intro p3 effs hrec
      rw [hcomp] at hrec
      simp only [Option.some.injEq, Prod.mk.injEq, List.nil_append] at hrec
      obtain ⟨hp3, heff⟩ := hrec
      subst hp3
      refine ⟨heff.symm, ?_⟩
      exact lookup2_set2_self _ _ _ _ _ (set2_eq _ _ _ _ _ hoL)
  · intro cfg p rs rs2 sender m p1 e1 hstg hrec
    obtain ⟨stg, d⟩ := m
    have hstg2 : stg = Stage.ECHO := hstg
    subst hstg2
    obtain ⟨pa, ms, ea, p2, ms2, e2, hI, hS, hSt, -⟩ := Receive_decomp _ _ _ _ _ _ _ hrec
    obtain ⟨-, -, -, -, hIk, -, -⟩ := initMessageState_inv _ _ _ _ _ _ _ hI
    by_cases hacc : sender ∈ ms.echoSample ∧ sender ∉ ms.receivedEcho
    · obtain ⟨h1, h2⟩ := hacc
      have hSc := receiveStage_echo_accept cfg pa sender d ms h1 h2
      rw [hSc] at hS
      obtain ⟨hp2, hm2, -⟩ := some_triple_inv hS
      obtain ⟨-, -, -, -, hStk, -⟩ := storeMessageState_inv _ _ _ _ hSt
      have hmem : sender ∈ ms2.receivedEcho := by
        rw [← hm2, sieve_receivedEcho]
        exact insertS_mem _ _
      have hI2 := initMessageState_existing cfg p1 rs2 d ms2 hStk
      have hS2 := receiveStage_echo_drop cfg p1 sender d ms2 (Or.inr hmem)
      have hSt2 := storeMessageState_self p1 d ms2 hStk
      simpa using Receive_build cfg p1 rs2 sender { stage := Stage.ECHO, messageData := d }
        p1 ms2 [] p1 ms2 [] p1 hI2 hS2 hSt2
    · have hor : sender ∉ ms.echoSample ∨ sender ∈ ms.receivedEcho := by
        by_contra hc
        push_neg at hc
        exact hacc ⟨hc.1, hc.2⟩
      have hSc := receiveStage_echo_drop cfg pa sender d ms hor
      rw [hSc] at hS
      obtain ⟨hp2, hm2, -⟩ := some_triple_inv hS
      obtain ⟨-, -, -, -, hStk, -⟩ := storeMessageState_inv _ _ _ _ hSt
      have hor2 : sender ∉ ms2.echoSample ∨ sender ∈ ms2.receivedEcho := by
        rw [← hm2]
        exact hor
      have hI2 := initMessageState_existing cfg p1 rs2 d ms2 hStk
      have hS2 := receiveStage_echo_drop cfg p1 sender d ms2 hor2
      have hSt2 := storeMessageState_self p1 d ms2 hStk
      simpa using Receive_build cfg p1 rs2 sender { stage := Stage.ECHO, messageData := d }
        p1 ms2 [] p1 ms2 [] p1 hI2 hS2 hSt2

/-- Witness for C7: repeating the same ECHO leaves the state fixed. -/
theorem C7_echo_accept_iff_idempotent_witness :
    Receive owCfg (procAfter c7Step c7P) owRs "b" (mkMsg Stage.ECHO "a" 0 1) =
      some (procAfter c7Step c7P, []) :=
  C7_echo_accept_iff_idempotent.2.2 owCfg c7P owRs owRs "b" (mkMsg Stage.ECHO "a" 0 1)
    (procAfter c7Step c7P) (effsAfter c7Step) (by decide) (by decide)

/-- Claim C8: READY_SUBSCRIBE from a sender already subscribed has no effect;
otherwise the sender is added and exactly one READY per value already in
readyMessagesSent is unicast to the sender with the own pid as sender. -/
theorem C8_ready_subscribe_replay :
    (∀ cfg p rs sender d ms,
      lookup2 p.messagesLog d.author d.seqNumber = some ms →
      sender ∈ ms.readySubscriptionSet →
      Receive cfg p rs sender { stage := Stage.READY_SUBSCRIBE, messageData := d } =
        some (p, [])) ∧
    (∀ cfg p rs sender d ms,
      lookup2 p.messagesLog d.author d.seqNumber = some ms →
      sender ∉ ms.readySubscriptionSet →
      (Receive cfg p rs sender
        { stage := Stage.READY_SUBSCRIBE, messageData := d }).isSome ∧
      ∀ p3 effs,
        Receive cfg p rs sender { stage := Stage.READY_SUBSCRIBE, messageData := d } =
          some (p3, effs) →
        effs = ms.readyMessagesSent.map (fun v =>
          Effect.send sender (mkMsg Stage.READY d.author d.seqNumber v) p.pid) ∧
        lookup2 p3.messagesLog d.author d.seqNumber =
          some { ms with
            readySubscriptionSet := insertS ms.readySubscriptionSet sender }) := by
  constructor
  · intro cfg p rs sender d ms hms hc
    have hI := initMessageState_existing cfg p rs d ms hms
    have hS := receiveStage_ready_subscribe_drop cfg p sender d ms hc
    have hSt := storeMessageState_self p d ms hms
    simpa using Receive_build cfg p rs sender
      { stage := Stage.READY_SUBSCRIBE, messageData := d } p ms [] p ms [] p hI hS hSt
  · intro cfg p rs sender d ms hms hc
    have hI := initMessageState_existing cfg p rs d ms hms
    have hS := receiveStage_ready_subscribe_new cfg p sender d ms hc
    obtain ⟨innerLog, hoL, -⟩ := lookup2_some_outer _ _ _ _ hms
    have hcomp := Receive_build cfg p rs sender
      { stage := Stage.READY_SUBSCRIBE, messageData := d }
      p ms [] p _ _ _ hI hS (storeMessageState_eq p d _ innerLog hoL)
    constructor
    · rw [hcomp]
      rfl
    · intro p3 effs hrec
      rw [hcomp] at hrec
      simp only [Option.some.injEq, Prod.mk.injEq, List.nil_append] at hrec
      obtain ⟨hp3, heff⟩ := hrec
      subst hp3
      refine ⟨heff.symm, ?_⟩
      exact lookup2_set2_self _ _ _ _ _ (set2_eq _ _ _ _ _ hoL)

/-- Witness for C8: a late subscriber receives the already-sent READY(five). -/
theorem C8_ready_subscribe_replay_witness :
    effsAfter c8Step = ([5] : List Value).map (fun v =>
      Effect.send "b" (mkMsg Stage.READY "a" 0 v) "a") ∧
    lookup2 (procAfter c8Step c8P).messagesLog "a" 0 =
      some { c8MS with readySubscriptionSet := insertS c8MS.readySubscriptionSet "b" } :=
  (C8_ready_subscribe_replay.2 owCfg c8P owRs "b"
      { author := "a", seqNumber := 0, value := 0 } c8MS (by decide) (by decide)).2
    (procAfter c8Step c8P) (effsAfter c8Step) (by decide)

/-! Lemmas for C9: the receivedReady domain installed at state creation. -/

theorem initMessageState_fresh_receivedReady (cfg : Config) (p : Process) (rs : RandomSource)
    (d : MessageData) (p1 : Process) (ms : MessageState) (e : List Effect)
    (h0 : lookup2 p.messagesLog d.author d.seqNumber = none)
    (h : initMessageState cfg p rs d = some (p1, ms, e)) :
    ms.receivedReady = p.pids.map (fun q => (q, [])) := by
  unfold initMessageState at h
  simp only [h0] at h
  cases hG : generateGossipSample cfg p rs with
  | none => simp [hG] at h
  | some gS =>
    simp only [hG] at h
    cases hE : sample cfg p rs.echoStream Stage.ECHO_SUBSCRIBE d cfg.EchoSampleSize with
    | none => simp [hE] at h
    | some xE =>
      obtain ⟨eS, eE⟩ := xE
      simp only [hE] at h
      cases hR : sample cfg p rs.readyStream Stage.READY_SUBSCRIBE d cfg.ReadySampleSize with
      | none => simp [hR] at h
      | some xR =>
        obtain ⟨rS, rE⟩ := xR
        simp only [hR] at h
        cases hD : sample cfg p rs.deliveryStream Stage.READY_SUBSCRIBE d
            cfg.DeliverySampleSize with
        | none => simp [hD] at h
        | some xD =>
          obtain ⟨dS, dE⟩ := xD
          simp only [hD] at h
          split at h
          · exact absurd h (by simp)
          · rename_i log hSet
            simp only [Option.some.injEq, Prod.mk.injEq] at h
            obtain ⟨-, hms, -⟩ := h
            rw [← hms]

theorem lookupA_map_nil_isSome (l : List Pid) (x : Pid) :
    (lookupA (l.map (fun q => (q, ([] : List Value)))) x).isSome ↔ x ∈ l := by
  induction l with
  | nil => simp [lookupA]
  | cons a t ih =>
    by_cases h : a = x
    · subst h
      simp [lookupA]
    · simp [lookupA, h, ih, Ne.symm h]

/-- Claim C9: initMessageState pre-populates receivedReady with exactly the
participant pids; for a known sender the READY handler never reaches the
nil-map write and is total, while for a sender with no receivedReady entry
the write is a Go panic. -/
theorem C9_ready_known_sender :
    (∀ cfg p rs d p1 ms e,
      lookup2 p.messagesLog d.author d.seqNumber = none →
      initMessageState cfg p rs d = some (p1, ms, e) →
      ∀ q, (lookupA ms.receivedReady q).isSome ↔ q ∈ p.pids) ∧
    (∀ cfg p rs sender d ms inner,
      lookup2 p.messagesLog d.author d.seqNumber = some ms →
      lookupA ms.receivedReady sender = some inner →
      (lookupA p.deliveredMessages d.author).isSome →
      (Receive cfg p rs sender { stage := Stage.READY, messageData := d }).isSome) ∧
    (∀ cfg p rs sender d ms,
      lookup2 p.messagesLog d.author d.seqNumber = some ms →
      lookupA ms.receivedReady sender = none →
      Receive cfg p rs sender { stage := Stage.READY, messageData := d } = none) := by
  refine ⟨?_, ?_, ?_⟩
  · intro cfg p rs d p1 ms e h0 h q
    rw [initMessageState_fresh_receivedReady cfg p rs d p1 ms e h0 h]
    exact lookupA_map_nil_isSome p.pids q
  · intro cfg p rs sender d ms inner hms hinner hdel
    have hI := initMessageState_existing cfg p rs d ms hms
    have htot := receiveStage_ready_total cfg p sender d ms inner hinner hdel
    cases hS : receiveStage cfg p sender { stage := Stage.READY, messageData := d } ms with
    | none =>
      rw [hS] at htot
      simp at htot
    | some y =>
      obtain ⟨p2, ms2, e2⟩ := y
      obtain ⟨⟨-, -, -, hSlog⟩, -, -, -, -⟩ := receiveStage_inv _ _ _ _ _ _ _ _ hS
      obtain ⟨innerLog, hoL, -⟩ := lookup2_some_outer _ _ _ _ hms
      have hoL2 : lookupA p2.messagesLog d.author = some innerLog := by
        rw [hSlog]
        exact hoL
      have hcomp := Receive_build cfg p rs sender { stage := Stage.READY, messageData := d }
        p ms [] p2 ms2 e2 _ hI hS (storeMessageState_eq p2 d ms2 innerLog hoL2)
      rw [hcomp]
      rfl
  · intro cfg p rs sender d ms hms hnone
    have hI := initMessageState_existing cfg p rs d ms hms
    have hS := receiveStage_ready_nil_panic cfg p sender d ms hnone
    unfold Receive
    simp only [hI, hS]

/-- Witness for C9: a READY from an unknown sender panics, a READY from a
known sender is processed. -/
theorem C9_ready_known_sender_witness :
    Receive owCfg c6P owRs "z" (mkMsg Stage.READY "a" 0 1) = none :=
  C9_ready_known_sender.2.2 owCfg c6P owRs "z" { author := "a", seqNumber := 0, value := 1 }
    c6MS (by decide) (by decide)

/-! Lemmas for C4: sizes of the drawn samples. -/

theorem getRandomPid_mem_take (cfg : Config) (p : Process) (r : Nat) (q : Pid)
    (h : getRandomPid cfg p r = some q) : q ∈ p.pids.take cfg.ProcessCount := by
  unfold getRandomPid at h
  split at h
  · exact absurd h (by simp)
  · rename_i hpc
    have hlt : r % cfg.ProcessCount < cfg.ProcessCount :=
      Nat.mod_lt r (Nat.pos_of_ne_zero hpc)
    have h2 : (p.pids.take cfg.ProcessCount).get? (r % cfg.ProcessCount) = some q := by
      rw [List.get?_take hlt]
      exact h
    exact List.get?_mem h2

theorem getRandomPid_some (cfg : Config) (p : Process) (r : Nat)
    (h1 : 0 < cfg.ProcessCount) (h2 : cfg.ProcessCount ≤ p.pids.length) :
    (getRandomPid cfg p r).isSome := by
  unfold getRandomPid
  rw [if_neg (Nat.pos_iff_ne_zero.mp h1)]
  have hlt : r % cfg.ProcessCount < p.pids.length :=
    lt_of_lt_of_le (Nat.mod_lt r h1) h2
  rw [List.get?_eq_get hlt]
  rfl

theorem nodup_subset_length_le {α : Type} [DecidableEq α] (l t : List α) (hnd : l.Nodup)
    (hsub : ∀ x ∈ l, x ∈ t) : l.length ≤ t.length := by
  have hc1 : l.toFinset.card = l.length := List.toFinset_card_of_nodup hnd
  have hc2 : l.toFinset ⊆ t.toFinset := by
    intro x hx
    rw [List.mem_toFinset] at hx ⊢
    exact hsub x hx
  calc l.length = l.toFinset.card := hc1.symm
    _ ≤ t.toFinset.card := Finset.card_le_card hc2
    _ ≤ t.length := List.toFinset_card_le t

theorem sampleSet_isSome (cfg : Config) (p : Process) (stream : Nat → Nat)
    (h1 : 0 < cfg.ProcessCount) (h2 : cfg.ProcessCount ≤ p.pids.length) :
    ∀ k i acc, (sampleSet cfg p stream k i acc).isSome := by
  intro k
  induction k with
  | zero => intro i acc; rfl
  | succ n ih =>
    intro i acc
    have hg := getRandomPid_some cfg p (stream i) h1 h2
    cases hq : getRandomPid cfg p (stream i) with
    | none => rw [hq] at hg; simp at hg
    | some q =>
      simp only [sampleSet, hq]
      exact ih (i + 1) (insertS acc q)

theorem sampleSet_spec (cfg : Config) (p : Process) (stream : Nat → Nat) :
    ∀ k i acc l, acc.Nodup → (∀ x ∈ acc, x ∈ p.pids.take cfg.ProcessCount) →
      sampleSet cfg p stream k i acc = some l →
      l.Nodup ∧ (∀ x ∈ l, x ∈ p.pids.take cfg.ProcessCount) ∧
      l.length ≤ acc.length + k ∧ (k = 0 → l = acc) := by
  intro k
  induction k with
  | zero =>
    intro i acc l hnd hsub h
    simp only [sampleSet, Option.some.injEq] at h
    subst h
    exact ⟨hnd, hsub, by simp, fun _ => rfl⟩
  | succ n ih =>
    intro i acc l hnd hsub h
    simp only [sampleSet] at h
    cases hq : getRandomPid cfg p (stream i) with
    | none => simp [hq] at h
    | some q =>
      simp only [hq] at h
      have hq2 := getRandomPid_mem_take cfg p (stream i) q hq
      obtain ⟨l1, l2, l3, -⟩ := ih (i + 1) (insertS acc q) l (insertS_nodup _ _ hnd)
        (insertS_subset _ _ _ hq2 hsub) h
      refine ⟨l1, l2, ?_, fun hc => absurd hc (Nat.succ_ne_zero n)⟩
      have hlen := insertS_length_le acc q
      omega

theorem gossipLoop_spec (cfg : Config) (p : Process) (stream : Nat → Nat) :
    ∀ fuel i target acc l, acc.Nodup → acc.length ≤ target →
      gossipLoop cfg p stream fuel i target acc = some l →
      l.Nodup ∧ l.length = target := by
  intro fuel
  induction fuel with
  | zero =>
    intro i target acc l hnd hle h
    simp only [gossipLoop] at h
    split at h
    · exact absurd h (by simp)
    · rename_i hge
      simp only [Option.some.injEq] at h
      subst h
      exact ⟨hnd, le_antisymm hle (not_lt.mp hge)⟩
  | succ n ih =>
    intro i target acc l hnd hle h
    simp only [gossipLoop] at h
    split at h
    · rename_i hlt
      cases hq : getRandomPid cfg p (stream i) with
      | none => simp [hq] at h
      | some q =>
        simp only [hq] at h
        have hle2 : (insertS acc q).length ≤ target := by
          have := insertS_length_le acc q
          omega
        exact ih (i + 1) target (insertS acc q) l (insertS_nodup _ _ hnd) hle2 h
    · rename_i hge
      simp only [Option.some.injEq] at h
      subst h
      exact ⟨hnd, le_antisymm hle (not_lt.mp hge)⟩

/-- Claim C4 (amended): Process.sample always terminates and returns a set of
distinct pids of size at most min(size, ProcessCount) together with the
subscription broadcast, returning the empty set for size zero — collisions of
the with-replacement draws can make it smaller than min(size, ProcessCount),
as the counterexample shows; the Poisson gossip sampler, when its collection
loop completes, returns a duplicate-free set of size exactly the drawn size
clipped to ProcessCount. -/
theorem C4_sample_size_bounds :
    (∀ cfg p stream stg d s, 0 < cfg.ProcessCount → cfg.ProcessCount ≤ p.pids.length →
      (sample cfg p stream stg d s).isSome) ∧
    (∀ cfg p stream stg d s l effs,
      sample cfg p stream stg d s = some (l, effs) →
      l.Nodup ∧ l.length ≤ min s cfg.ProcessCount ∧ (s = 0 → l = []) ∧
      effs = broadcastToSet p l { stage := stg, messageData := d }) ∧
    (∀ cfg p rs l, generateGossipSample cfg p rs = some l →
      l.Nodup ∧ l.length = min rs.gossipSizeDraw cfg.ProcessCount) := by
  refine ⟨?_, ?_, ?_⟩
  · intro cfg p stream stg d s h1 h2
    have hs := sampleSet_isSome cfg p stream h1 h2 s 0 []
    cases hss : sampleSet cfg p stream s 0 [] with
    | none => rw [hss] at hs; simp at hs
    | some l => simp [sample, hss]
  · intro cfg p stream stg d s l effs h
    unfold sample at h
    cases hss : sampleSet cfg p stream s 0 [] with
    | none => simp [hss] at h
    | some l0 =>
      simp only [hss, Option.some.injEq, Prod.mk.injEq] at h
      obtain ⟨hl, heff⟩ := h
      subst hl
      obtain ⟨l1, l2, l3, l4⟩ := sampleSet_spec cfg p stream s 0 [] l0 (by simp)
        (by simp) hss
      refine ⟨l1, ?_, l4, heff.symm⟩
      have hpc : l0.length ≤ cfg.ProcessCount := by
        have hx := nodup_subset_length_le l0 (p.pids.take cfg.ProcessCount) l1 l2
        have hy : (p.pids.take cfg.ProcessCount).length ≤ cfg.ProcessCount := by
          rw [List.length_take]
          exact min_le_left _ _
        omega
      have hs : l0.length ≤ s := by simpa using l3
      exact le_min hs hpc
  · intro cfg p rs l h
    unfold generateGossipSample at h
    exact gossipLoop_spec cfg p rs.gossipStream rs.gossipFuel 0
      (min rs.gossipSizeDraw cfg.ProcessCount) [] l (by simp) (by simp) h

/-- Witness for C4 at the counterexample draw: the returned set is
duplicate-free and within the size bound. -/
theorem C4_sample_size_bounds_witness :
    (["a"] : List Pid).Nodup ∧ (["a"] : List Pid).length ≤ min 2 owCfg.ProcessCount :=
  ⟨(C4_sample_size_bounds.2.1 owCfg owP0 (constStream 0) Stage.ECHO_SUBSCRIBE
      { author := "a", seqNumber := 0, value := 0 } 2 ["a"]
      [Effect.send "a" (mkMsg Stage.ECHO_SUBSCRIBE "a" 0 0) "a"] (by decide)).1,
   (C4_sample_size_bounds.2.1 owCfg owP0 (constStream 0) Stage.ECHO_SUBSCRIBE
      { author := "a", seqNumber := 0, value := 0 } 2 ["a"]
      [Effect.send "a" (mkMsg Stage.ECHO_SUBSCRIBE "a" 0 0) "a"] (by decide)).2.1⟩

end Scalable
